import Mathlib

/-!
# DAQ_Caen: acquisition control logic, embedded from the C++ sources

Sources embedded here:
* `src/daq_threshold_v1.0.0.cpp` (the threshold program): `die`, `ok`,
  `measure_pedestal`, `read_temperatures` and `main`;
* `src/daq_sw.cpp` (the software-trigger program): the acquisition loop of `main`;
* `src/utils/read_temp_influx.cpp` (the telemetry program): `loop_once`.

The CAEN driver is an external library. It is embedded as an environment the
program talks to: every driver call the program issues is appended to a log,
the status of a call is the answer of the device to the call in that position
of the run, and the data a call hands back (buffer size, number of events,
decoded event) is part of the device description.

Machine integers: `uint32_t`/`uint64_t` values are `Nat` with an explicit
reduction modulo `2^32`/`2^64` where the source computes with them, `int`
values are `Int`.
-/

namespace DAQ

/-! ## Driver types -/

/-- Status of a driver call (`CAEN_DGTZ_ErrorCode`); failures are negative. -/
abbrev ErrorCode := Int

/-- The success status `CAEN_DGTZ_Success`. -/
def CAEN_DGTZ_Success : ErrorCode := 0

/-- The two `CAEN_DGTZ_TRGMODE_*` values the programs write. -/
inductive TriggerMode where
  | DISABLED
  | ACQ_ONLY
deriving DecidableEq, Repr

/-- A decoded event (`CAEN_DGTZ_UINT16_EVENT_t`). The C structure holds, per
channel, a pointer `DataChannel[ch]` to the samples and their number
`ChSize[ch]`; here `DataChannel[ch]` is the list of the samples, and `ChSize`
is its length. -/
structure UINT16_EVENT where
  DataChannel : List (List Nat)
deriving DecidableEq, Repr

/-- Samples of channel `ch` (`e->DataChannel[ch]`). The sources index with an
`int`; the programs only read channels `0..7` when the channel option is in
the device range. -/
def UINT16_EVENT.samples (e : UINT16_EVENT) (ch : Int) : List Nat :=
  e.DataChannel.getD ch.toNat []

/-- Number of samples of channel `ch` (`e->ChSize[ch]`). -/
def UINT16_EVENT.ChSize (e : UINT16_EVENT) (ch : Int) : Nat :=
  (e.samples ch).length

/-- The driver calls the programs issue, with the arguments that matter. -/
inductive DeviceCall where
  | OpenDigitizer (link : Int)
  | Reset
  | GetInfo
  | SetAcquisitionMode
  | SetChannelEnableMask (mask : Nat)
  | SetRecordLength (recLen : Int)
  | SetPostTriggerSize (post : Int)
  | SetMaxNumEventsBLT (n : Nat)
  | SetChannelPulsePolarity (ch : Nat)
  | SetTriggerPolarity (ch : Nat)
  | SetChannelDCOffset (ch : Nat) (value : Nat)
  | SetChannelSelfTrigger (mode : TriggerMode) (mask : Nat)
  | SetExtTriggerInputMode (mode : TriggerMode)
  | SetSWTriggerMode (mode : TriggerMode)
  | SetChannelTriggerThreshold (ch : Int) (thr : Nat)
  | GetChannelTriggerThreshold (ch : Int)
  | MallocReadoutBuffer
  | AllocateEvent
  | SWStartAcquisition
  | SendSWtrigger
  | ReadData
  | SWStopAcquisition
  | GetNumEvents
  | GetEventInfo (i : Nat)
  | DecodeEvent
  | FreeEvent
  | FreeReadoutBuffer
  | ReadTemperature (ch : Nat)
  | ClearData
  | CloseDigitizer
deriving DecidableEq, Repr

/-- The driver calls issued so far, oldest first. -/
abbrev Log := List DeviceCall

/-! ## Threshold and pair arming (`main`, lines 206-212) -/

/-- Line 208: `thr_abs = (trig=="self") ? ((ped > delta) ? ped - delta : 0u) : ped`,
on `uint32_t` operands. -/
def thr_abs (trig : String) (ped delta : Nat) : Nat :=
  if trig = "self" then (if ped > delta then (ped + 2 ^ 32 - delta) % 2 ^ 32 else 0) else ped

/-- Line 211: `pair_base = (ch % 2 == 0) ? ch : (ch-1)`, with the truncating
remainder of C++ on `int`. -/
def pair_base (ch : Int) : Int :=
  if Int.tmod ch 2 = 0 then ch else ch - 1

/-- The `uint32_t` value of `1u << s`. C++ defines it for `0 <= s < 32` only;
the channel range `0..7` stays inside. -/
def shl1u (s : Int) : Nat :=
  (1 <<< s.toNat) % 2 ^ 32

/-- Line 212: `pair_mask = (1u << pair_base) | (1u << (pair_base+1))`. -/
def pair_mask (pair_base : Int) : Nat :=
  shl1u pair_base ||| shl1u (pair_base + 1)

/-! ## The device as seen by the program -/

/-- What the calibration burst of `measure_pedestal` hands back: the byte
count of `ReadData`, the event count of `GetNumEvents`, and the event
`DecodeEvent` leaves behind (`none` is a null event pointer). -/
structure Burst where
  bsz : Nat
  nev : Nat
  evt : Option UINT16_EVENT

/-- One readout of the steady-state loop: the byte count of `ReadData` and the
events of the buffer, in order (`GetNumEvents` reports their number, and
`DecodeEvent` of the `i`-th leaves the `i`-th entry; `none` is a null event
pointer). -/
structure Readout where
  bsz : Nat
  events : List (Option UINT16_EVENT)

/-- The device of one run: `ec k` is the status of the `k`-th driver call of
the run (counted from 0, unchecked calls included), `burst` is the calibration
burst, `readouts` the buffers successive `ReadData` calls of the acquisition
loop return. -/
structure Device where
  ec : Nat → ErrorCode
  burst : Burst
  readouts : List Readout

/-- Result of a program fragment: it returns a value, or the process exits
with a code; both carry the log of driver calls. -/
inductive Run (α : Type) where
  | ret (a : α) (log : Log)
  | exit (code : Int) (log : Log)

/-- Sequencing of program fragments: an exit ends the run. -/
def Run.bind {α β : Type} : Run α → (α → Log → Run β) → Run β
  | .ret a log, f => f a log
  | .exit code log, _ => .exit code log

/-- The log a fragment ends with. -/
def Run.log {α : Type} : Run α → Log
  | .ret _ log => log
  | .exit _ log => log

/-- Exit code of `die` (lines 44-47): `std::exit(1)`. -/
def die : Int := 1

/-- The source's `ok(where, call)` (lines 48-50): the call is issued, and
any status but success ends the process through `die`. -/
def ok (dev : Device) (c : DeviceCall) (log : Log) : Run Unit :=
  if dev.ec log.length ≠ CAEN_DGTZ_Success then .exit die (log ++ [c]) else .ret () (log ++ [c])

/-- A straight-line sequence of `ok(...)` statements. -/
def okAll (dev : Device) : List DeviceCall → Log → Run Unit
  | [], log => .ret () log
  | c :: cs, log => (ok dev c log).bind fun _ log1 => okAll dev cs log1

/-! ## `measure_pedestal` (lines 66-105) -/

/-- Lines 98-99: `for(i=0;i<n;++i) sum += DataChannel[ch][i]` with a
`uint64_t` accumulator. -/
def sumLoop (data : List Nat) (n : Nat) : Nat :=
  (List.range n).foldl (fun sum i => (sum + data.getD i 0) % 2 ^ 64) 0

/-- Lines 66-105. The two early returns and the final return all free the
event and the readout buffer (unchecked calls). -/
def measure_pedestal (dev : Device) (ch : Int) (maxSamp : Nat) (log : Log) : Run Nat :=
  (okAll dev [.MallocReadoutBuffer, .AllocateEvent, .SetSWTriggerMode .ACQ_ONLY,
      .SWStartAcquisition, .SendSWtrigger, .ReadData, .SWStopAcquisition,
      .GetNumEvents] log).bind fun _ log1 =>
  if dev.burst.nev = 0 ∨ dev.burst.bsz = 0 then
    .ret 0x8000 (log1 ++ [.FreeEvent, .FreeReadoutBuffer])
  else
    (okAll dev [.GetEventInfo 0, .DecodeEvent] log1).bind fun _ log2 =>
    match dev.burst.evt with
    | none => .ret 0x8000 (log2 ++ [.FreeEvent, .FreeReadoutBuffer])
    | some e =>
      if ch < 0 ∨ ch ≥ 8 ∨ e.ChSize ch = 0 then
        .ret 0x8000 (log2 ++ [.FreeEvent, .FreeReadoutBuffer])
      else
        let n := min (e.ChSize ch) maxSamp
        let sum := sumLoop (e.samples ch) n
        let ped := (sum / (if n ≠ 0 then n else 1)) % 2 ^ 32
        .ret ped (log2 ++ [.FreeEvent, .FreeReadoutBuffer])

/-- Lines 107-115: eight unchecked `ReadTemperature` calls. -/
def read_temperatures (log : Log) : Log :=
  log ++ (List.range 8).map DeviceCall.ReadTemperature

/-! ## `main` of the threshold program (lines 117-406) -/

/-- The variables `main` parses from the command line (lines 118-128). -/
structure Config where
  N : Int := 10
  trig : String := "self"
  link : Int := 0
  ch : Int := 0
  recLen : Int := 1024
  post : Int := 50
  delta : Nat := 120
  txt : String := ""
  txtdir : String := ""
  rootOut : String := ""
  tag : String := ""

/-- Lines 162-186: open, reset, board info, program basics, polarity and DC
offset of the eight channels, each under `ok`. -/
def programBasics (cfg : Config) : List DeviceCall :=
  [.OpenDigitizer cfg.link, .Reset, .GetInfo, .SetAcquisitionMode,
   .SetChannelEnableMask 0xFF, .SetRecordLength cfg.recLen,
   .SetPostTriggerSize cfg.post, .SetMaxNumEventsBLT 1023]
  ++ ((List.range 8).map fun i =>
        [DeviceCall.SetChannelPulsePolarity i, DeviceCall.SetTriggerPolarity i]).flatten
  ++ (List.range 8).map fun i => DeviceCall.SetChannelDCOffset i 0x3333

/-- Lines 189-204: the calls of the trigger selection; `none` is the final
`else` (unknown trigger mode, `return 2`). -/
def triggerSelection (trig : String) : Option (List DeviceCall) :=
  if trig = "sw" then
    some [.SetChannelSelfTrigger .DISABLED 0xFF, .SetExtTriggerInputMode .DISABLED,
          .SetSWTriggerMode .ACQ_ONLY]
  else if trig = "ext" then
    some [.SetChannelSelfTrigger .DISABLED 0xFF, .SetSWTriggerMode .DISABLED,
          .SetExtTriggerInputMode .ACQ_ONLY]
  else if trig = "self" then
    some [.SetSWTriggerMode .DISABLED, .SetExtTriggerInputMode .DISABLED]
  else none

/-- Lines 214-225: in self mode the pair is armed and read back. -/
def armCalls (cfg : Config) (ped : Nat) : List DeviceCall :=
  if cfg.trig = "self" then
    [.SetChannelTriggerThreshold (pair_base cfg.ch) (thr_abs cfg.trig ped cfg.delta),
     .SetChannelTriggerThreshold (pair_base cfg.ch + 1) (thr_abs cfg.trig ped cfg.delta),
     .SetChannelSelfTrigger .ACQ_ONLY (pair_mask (pair_base cfg.ch)),
     .GetChannelTriggerThreshold (pair_base cfg.ch),
     .GetChannelTriggerThreshold (pair_base cfg.ch + 1)]
  else []

/-- Lines 162-229: everything `main` does with the device before the output
files are prepared. Returns the pedestal. -/
def configure (cfg : Config) (dev : Device) : Run Nat :=
  (okAll dev (programBasics cfg) []).bind fun _ log1 =>
  match triggerSelection cfg.trig with
  | none => .exit 2 log1
  | some calls =>
    (okAll dev calls log1).bind fun _ log2 =>
    (measure_pedestal dev cfg.ch 200 log2).bind fun ped log3 =>
    (okAll dev (armCalls cfg ped) log3).bind fun _ log4 =>
    .ret ped (read_temperatures log4)

/-- What the file system answers when the sinks are opened: `txtOpens` is
whether the `--txt` file opens for append (line 302), `foutOpens got` whether
the per-event file `waveform_<got>.txt` opens (line 342), `rootOpens` whether
the ROOT file opens and its tag directory is obtained (lines 245-283). -/
structure FileSystem where
  txtOpens : Bool
  foutOpens : Int → Bool
  rootOpens : Bool

/-- One written waveform: the sequence number it is named by (`got`) and the
samples of the target channel. -/
structure Record where
  seq : Int
  samples : List Nat
deriving DecidableEq, Repr

/-- What has been written: per-event text files (`--txtdir`), blocks of the
aggregated text file (`--txt`), histograms of the ROOT file (`--root`). -/
structure Sinks where
  txtdir : List Record := []
  txt : List Record := []
  root : List Record := []
deriving DecidableEq, Repr

/-- State of the acquisition loop. -/
structure AcqState where
  got : Int := 0
  sinks : Sinks := {}
  log : Log := []
deriving DecidableEq, Repr

/-- How a run of the program ends: `done` is the acquisition loop left with
`got >= N`, `exit` the end of the process, `polling` a loop that has consumed
all the readouts of the device and is still waiting for data. -/
inductive Outcome where
  | done (st : AcqState)
  | exit (code : Int) (st : AcqState)
  | polling (st : AcqState)
deriving DecidableEq, Repr

/-- The state an outcome carries. -/
def Outcome.state : Outcome → AcqState
  | .done st => st
  | .exit _ st => st
  | .polling st => st

/-- `txt_out.is_open()` (lines 300-306). -/
def txt_out_is_open (cfg : Config) (fs : FileSystem) : Bool :=
  cfg.txt ≠ "" && fs.txtOpens

/-- `rfile && dtag` (lines 244-288). -/
def root_ready (cfg : Config) (fs : FileSystem) : Bool :=
  cfg.rootOut ≠ "" && fs.rootOpens

/-- Lines 332-371: the sink writes for one decoded event, at count `got`. -/
def writeEvent (cfg : Config) (fs : FileSystem) (e : Option UINT16_EVENT) (got : Int)
    (s : Sinks) : Sinks :=
  let ns : Nat := match e with
    | some ev => ev.ChSize cfg.ch
    | none => 0
  let data : List Nat := match e with
    | some ev => ev.samples cfg.ch
    | none => []
  let s1 : Sinks :=
    if ns > 0 ∧ (cfg.txt ≠ "" ∨ cfg.txtdir ≠ "") then
      if cfg.txtdir ≠ "" then
        if fs.foutOpens got then { s with txtdir := s.txtdir ++ [⟨got, data⟩] } else s
      else if txt_out_is_open cfg fs then { s with txt := s.txt ++ [⟨got, data⟩] }
      else s
    else s
  if root_ready cfg fs ∧ ns > 0 then { s1 with root := s1.root ++ [⟨got, data⟩] } else s1

/-- Lines 328-374: `for(i=0; i<nev && got<N; ++i)` over the events of one
buffer, from index `i` on. The outcome `done` is the loop left in the normal
way (events consumed, or `got` no longer below `N`). -/
def eventLoop (cfg : Config) (dev : Device) (fs : FileSystem) :
    List (Option UINT16_EVENT) → Nat → AcqState → Outcome
  | [], _, st => .done st
  | e :: es, i, st =>
    if st.got < cfg.N then
      match okAll dev [.GetEventInfo i, .DecodeEvent] st.log with
      | .exit code log => .exit code { st with log := log }
      | .ret _ log =>
        eventLoop cfg dev fs es (i + 1)
          { got := st.got + 1, sinks := writeEvent cfg fs e st.got st.sinks, log := log }
    else .done st

/-- Lines 312-315: in software mode each iteration first sends a trigger
(status unchecked). -/
def sendTrigger (cfg : Config) (log : Log) : Log :=
  if cfg.trig = "sw" then log ++ [.SendSWtrigger] else log

/-- Lines 311-375: `while(got<N)`, one readout per iteration. -/
def acquire (cfg : Config) (dev : Device) (fs : FileSystem) :
    List Readout → AcqState → Outcome
  | [], st => if st.got < cfg.N then .polling st else .done st
  | r :: rs, st =>
    if st.got < cfg.N then
      match ok dev .ReadData (sendTrigger cfg st.log) with
      | .exit code log => .exit code { st with log := log }
      | .ret _ log1 =>
        if r.bsz = 0 then acquire cfg dev fs rs { st with log := log1 }
        else
          match ok dev .GetNumEvents log1 with
          | .exit code log => .exit code { st with log := log }
          | .ret _ log2 =>
            match eventLoop cfg dev fs r.events 0 { st with log := log2 } with
            | .done st1 => acquire cfg dev fs rs st1
            | o => o
    else .done st

/-- The threshold program from the parsed options on (lines 156-406). The
run-information and temperature trees of the ROOT file are not part of the
state. -/
def main (cfg : Config) (dev : Device) (fs : FileSystem) : Outcome :=
  match configure cfg dev with
  | .exit code log => .exit code { log := log }
  | .ret _ log1 =>
    match okAll dev [.ClearData, .SWStartAcquisition, .MallocReadoutBuffer,
        .AllocateEvent] log1 with
    | .exit code log => .exit code { log := log }
    | .ret _ log2 =>
      match acquire cfg dev fs dev.readouts { log := log2 } with
      | .done st =>
        match ok dev .SWStopAcquisition st.log with
        | .exit code log => .exit code { st with log := log }
        | .ret _ log3 =>
          .exit 0 { st with log := read_temperatures log3 ++
            [.FreeEvent, .FreeReadoutBuffer, .CloseDigitizer] }
      | o => o

/-! ## The acquisition loop of the software-trigger program (`daq_sw.cpp`) -/

/-- The constant `N_EVENTS` of `daq_sw.cpp`. -/
def N_EVENTS : Int := 1000

/-- The constant `CHANNEL` of `daq_sw.cpp`. -/
def CHANNEL : Int := 0

/-- Conversion of a `uint32_t` to `int` (`int nsamples = evt->ChSize[CHANNEL]`). -/
def toInt32 (n : Nat) : Int :=
  if n % 2 ^ 32 < 2 ^ 31 then (n % 2 ^ 32 : Nat) else (n % 2 ^ 32 : Nat) - 2 ^ 32

/-- One iteration of the loop of `daq_sw.cpp` as the device and the operator
decide it: the value of `stop_requested` the loop test reads, the byte count
of `ReadData`, the events of the buffer. -/
structure SwCycle where
  stop : Bool
  bsize : Nat
  events : List UINT16_EVENT

/-- State of the loop of `daq_sw.cpp`: the counters and the graphs written
(`waveform_%03d`, named by `acquired`). -/
structure SwState where
  acquired : Int := 0
  tried : Int := 0
  written : List Record := []
deriving DecidableEq, Repr

/-- How the loop of `daq_sw.cpp` ends: target reached, cancelled by the
operator, or still polling when the supplied cycles are consumed. -/
inductive SwOutcome where
  | done (st : SwState)
  | cancelled (st : SwState)
  | polling (st : SwState)
deriving DecidableEq, Repr

/-- The state an outcome of the loop of `daq_sw.cpp` carries. -/
def SwOutcome.state : SwOutcome → SwState
  | .done st => st
  | .cancelled st => st
  | .polling st => st

/-- Lines 79-104 of `daq_sw.cpp`: the loop over the events of one buffer. -/
def swEventLoop (N : Int) : List UINT16_EVENT → SwState → SwState
  | [], st => st
  | e :: es, st =>
    if st.acquired < N then
      if toInt32 (e.ChSize CHANNEL) > 0 then
        swEventLoop N es { st with acquired := st.acquired + 1,
                                   written := st.written ++ [⟨st.acquired, e.samples CHANNEL⟩] }
      else swEventLoop N es st
    else st

/-- Lines 66-105 of `daq_sw.cpp`: `while (acquired < N_EVENTS && !stop_requested)`,
with the target as a parameter. -/
def swAcquire (N : Int) : List SwCycle → SwState → SwOutcome
  | [], st => if st.acquired < N then .polling st else .done st
  | c :: cs, st =>
    if st.acquired < N then
      if c.stop then .cancelled st
      else
        let st1 := { st with tried := st.tried + 1 }
        if c.bsize = 0 then swAcquire N cs st1
        else swAcquire N cs (swEventLoop N c.events st1)
    else .done st

/-! ## The telemetry program (`utils/read_temp_influx.cpp`), `loop_once` (lines 140-185) -/

/-- The answer of `CAEN_DGTZ_ReadTemperature` for one sensor channel: the
status and the raw value written to `temp_raw`. -/
structure TempRead where
  ret : ErrorCode
  temp_raw : Nat

/-- One field of the line-protocol record, `temp_ch<ch>=<temp_c>`. -/
structure TempField where
  ch : Nat
  temp_raw : Nat
deriving DecidableEq, Repr

/-- Lines 147-157: the loop over the channels `0..7`; a field is appended for
a channel when `ret == CAEN_DGTZ_Success && temp_raw < 200`. -/
def collectFields (reads : Nat → TempRead) : List TempField :=
  (List.range 8).filterMap fun ch =>
    if (reads ch).ret = CAEN_DGTZ_Success ∧ (reads ch).temp_raw < 200 then
      some ⟨ch, (reads ch).temp_raw⟩
    else none

/-- Text of one field (line 153), with the stream in fixed notation and
precision 1: the raw value is an integer below 200, printed as `<value>.0`. -/
def TempField.text (f : TempField) : String :=
  "temp_ch" ++ toString f.ch ++ "=" ++ toString f.temp_raw ++ ".0"

/-- Text of the fields, separated by commas (lines 152-153). -/
def fieldsText (fields : List TempField) : String :=
  ",".intercalate (fields.map TempField.text)

/-- Lines 165-169: the line-protocol record. -/
def lineProtocol (measurement host : String) (fields : List TempField) : String :=
  measurement ++ ",host=" ++ host ++ ",device=DT5730S " ++ fieldsText fields

/-- Result of one polling cycle: the flag `ok`, the record handed to
`influx_write` (`none` when the cycle returns before the push), and the fields
collected. -/
structure Cycle where
  ok : Bool
  pushed : Option String
  fields : List TempField
deriving DecidableEq, Repr

/-- Lines 140-185: one polling cycle. `sent` is the answer of `influx_write`
(the transport layer). -/
def loop_once (measurement host : String) (reads : Nat → TempRead) (sent : Bool) : Cycle :=
  let fields := collectFields reads
  if fields = [] then { ok := false, pushed := none, fields := fields }
  else { ok := sent, pushed := some (lineProtocol measurement host fields), fields := fields }

/-- Sensor reads of one cycle: channel 0 answers success with the raw value
250, channel 1 success with 45, every other channel fails. -/
def hotSensorReads : Nat → TempRead :=
  fun ch => if ch = 0 then ⟨CAEN_DGTZ_Success, 250⟩
    else if ch = 1 then ⟨CAEN_DGTZ_Success, 45⟩ else ⟨-1, 0⟩

/-- Sensor reads of one cycle: channel 0 answers success with the raw value
250, every other channel fails. -/
def onlyHotSensorReads : Nat → TempRead :=
  fun ch => if ch = 0 then ⟨CAEN_DGTZ_Success, 250⟩ else ⟨-1, 0⟩

/-! ## Invariants and concrete runs used in the statements below -/

/-- Every sink holds at most `n` written events. -/
def Sinks.within (s : Sinks) (n : Int) : Prop :=
  (s.txtdir.length : Int) ≤ n ∧ (s.txt.length : Int) ≤ n ∧ (s.root.length : Int) ≤ n

/-- Loop invariant of the threshold program: `0 <= got <= N`, and no sink
holds more than `got` events. -/
def AcqState.Bounded (N : Int) (st : AcqState) : Prop :=
  0 ≤ st.got ∧ st.got ≤ N ∧ st.sinks.within st.got

/-- Loop invariant of `daq_sw.cpp`: `0 <= acquired <= N`, and exactly
`acquired` graphs are written. -/
def SwState.Bounded (N : Int) (st : SwState) : Prop :=
  0 ≤ st.acquired ∧ st.acquired ≤ N ∧ (st.written.length : Int) = st.acquired

/-- A file system on which every sink opens. -/
def allOpen : FileSystem := { txtOpens := true, foutOpens := fun _ => true, rootOpens := true }

/-- An event with the given samples on channel 0 and nothing on channels 1..7. -/
def eventCh0 (samples : List Nat) : UINT16_EVENT :=
  ⟨[samples, [], [], [], [], [], [], []]⟩

/-- A device on which every call succeeds and that has no data at all. -/
def quietDevice : Device :=
  { ec := fun _ => CAEN_DGTZ_Success, burst := ⟨0, 0, none⟩, readouts := [] }

/-- A device on which every call succeeds, with the given calibration burst
and readouts. -/
def goodDevice (burst : Burst) (readouts : List Readout) : Device :=
  { ec := fun _ => CAEN_DGTZ_Success, burst := burst, readouts := readouts }

/-- A software-trigger run of the threshold program with target 2 and ROOT
output. -/
def swTwoConfig : Config := { N := 2, trig := "sw", rootOut := "run.root" }

/-- A device whose calls all succeed: the calibration burst has one event of
four samples, the first readout is empty, the second holds three events (one
more than a target of 2 still needs). -/
def burstyDevice : Device :=
  goodDevice ⟨24, 1, some (eventCh0 [100, 102, 98, 100])⟩
    [⟨0, []⟩, ⟨72, [some (eventCh0 [1, 2]), some (eventCh0 [3, 4]), some (eventCh0 [5, 6])]⟩]

/-- Cycles of `daq_sw.cpp`: an empty read, then a buffer of three events. -/
def burstyCycles : List SwCycle :=
  [⟨false, 0, []⟩, ⟨false, 72, [eventCh0 [1, 2], eventCh0 [3, 4], eventCh0 [5, 6]]⟩]

/-- The exit code of a finished process, `none` while the loop is running. -/
def Outcome.code : Outcome → Option Int
  | .exit code _ => some code
  | _ => none

/-- A self-trigger run with target 1, ROOT output and a text directory
(`-n 1 -m self --root run.root --txtdir txt_out`). -/
def zeroSampleConfig : Config :=
  { N := 1, trig := "self", rootOut := "run.root", txtdir := "txt_out" }

/-- A device whose calls all succeed and whose only readout holds one event
with zero samples on channel 0. -/
def zeroSampleDevice : Device :=
  goodDevice ⟨24, 1, some (eventCh0 [100, 102, 98, 100])⟩ [⟨24, [some (eventCh0 [])]⟩]

/-- A self-trigger run with target 2 and ROOT output. -/
def gapConfig : Config := { N := 2, trig := "self", rootOut := "run.root" }

/-- A device whose calls all succeed and whose only readout holds an event
with zero samples on channel 0 followed by an event with two samples. -/
def gapDevice : Device :=
  goodDevice ⟨24, 1, some (eventCh0 [100, 102, 98, 100])⟩
    [⟨48, [some (eventCh0 []), some (eventCh0 [5, 6])]⟩]

/-- Default options with a trigger mode that is none of `sw`, `ext`, `self`
(`-m foo`). -/
def unknownModeConfig : Config := { trig := "foo" }

/-- Effect of one driver call on the software-trigger mode register. -/
def swWrite (r : Option TriggerMode) : DeviceCall → Option TriggerMode
  | .SetSWTriggerMode m => some m
  | _ => r

/-- The software-trigger mode register of the device after the calls of a
log: the mode of the last `SetSWTriggerMode` write (`none` before any). -/
def swTriggerMode (log : Log) : Option TriggerMode :=
  log.foldl swWrite none

/-- Default options in self-trigger mode (`-m self`). -/
def selfConfig : Config := { trig := "self" }

/-- Default options in external-trigger mode (`-m ext`). -/
def extConfig : Config := { trig := "ext" }

/-- A device whose calls all succeed, with a calibration event of four
samples on channel 0 and no readout. -/
def calibratedDevice : Device :=
  goodDevice ⟨24, 1, some (eventCh0 [100, 102, 98, 100])⟩ []

/-- Two readouts of one two-sample event each. -/
def twoReadouts : List Readout :=
  [⟨24, [some (eventCh0 [1, 2])]⟩, ⟨24, [some (eventCh0 [3, 4])]⟩]

/-- A device with data for two events whose calls all succeed. -/
def twoEventDevice : Device :=
  goodDevice ⟨24, 1, some (eventCh0 [100, 102, 98, 100])⟩ twoReadouts

/-- The same device, except that its call number 63 fails with status -2
(a communication error): in a self-trigger run this is the first `ReadData`
of the acquisition loop. -/
def readFailDevice : Device :=
  { ec := fun k => if k = 63 then -2 else CAEN_DGTZ_Success,
    burst := ⟨24, 1, some (eventCh0 [100, 102, 98, 100])⟩,
    readouts := twoReadouts }

/-- A device whose very first call fails. -/
def firstCallFails : Device :=
  { ec := fun k => if k = 0 then -2 else CAEN_DGTZ_Success,
    burst := ⟨0, 0, none⟩, readouts := twoReadouts }

/-- A self-trigger run with target 1 and both text sinks configured
(`-n 1 --txt all.txt --txtdir txt_out`). -/
def bothTextConfig : Config := { N := 1, txt := "all.txt", txtdir := "txt_out" }

/-- The record the sinks receive for an event at count `got`. -/
def recordOf (cfg : Config) (ev : UINT16_EVENT) (got : Int) : Record :=
  ⟨got, ev.samples cfg.ch⟩

/-- The scenario of five software triggers: target 5, channel 0, record
length 1024 (`-n 5 -m sw -c 0 -r 1024 --root run.root`). -/
def fiveSwConfig : Config := { N := 5, trig := "sw", rootOut := "run.root" }

/-- A device whose calls all succeed and that returns one event of 1024
samples per readout. -/
def fiveSwDevice : Device :=
  goodDevice ⟨2048, 1, some (eventCh0 (List.replicate 1024 0x2000))⟩
    (List.replicate 5 ⟨2048, [some (eventCh0 (List.replicate 1024 0x2000))]⟩)

/-- The graphs of `daq_sw.cpp` are numbered `0, 1, 2, ...` in the order
written. -/
def SwState.Numbered (st : SwState) : Prop :=
  (st.written.length : Int) = st.acquired ∧
  ∀ k (h : k < st.written.length), (st.written.get ⟨k, h⟩).seq = (k : Int)

/-- Number of bits set among the 32 bits of a `uint32_t` value. -/
def bitCount32 (m : Nat) : Nat :=
  ((List.range 32).filter fun b => m.testBit b).length

/-- The channel of a trigger-threshold write, `none` for any other call. -/
def thresholdWrite : DeviceCall → Option Int
  | .SetChannelTriggerThreshold ch _ => some ch
  | _ => none

/-- The channels that receive a trigger-threshold write, in order. -/
def thresholdWrites (log : Log) : List Int :=
  log.filterMap thresholdWrite

/-- A self-trigger run on channel 5 (`-m self -c 5`). -/
def selfCh5Config : Config := { trig := "self", ch := 5 }

/-- Two loop states reached on two file systems agree: same count, same
driver calls, and each sink holds the same events as soon as that sink opens
alike on both. -/
def AcqState.Agree (fs1 fs2 : FileSystem) (st1 st2 : AcqState) : Prop :=
  st1.got = st2.got ∧ st1.log = st2.log ∧
  (fs1.rootOpens = fs2.rootOpens → st1.sinks.root = st2.sinks.root) ∧
  (fs1.foutOpens = fs2.foutOpens → st1.sinks.txtdir = st2.sinks.txtdir) ∧
  (fs1.txtOpens = fs2.txtOpens → st1.sinks.txt = st2.sinks.txt)

/-- Two outcomes reached on two file systems agree: they end the same way,
with the same exit code, in states that agree. -/
def Outcome.Agree (fs1 fs2 : FileSystem) : Outcome → Outcome → Prop
  | .done st1, .done st2 => st1.Agree fs1 fs2 st2
  | .exit c1 st1, .exit c2 st2 => c1 = c2 ∧ st1.Agree fs1 fs2 st2
  | .polling st1, .polling st2 => st1.Agree fs1 fs2 st2
  | _, _ => False

/-- A file system on which no text sink opens; the ROOT file does. -/
def textSinksFail : FileSystem :=
  { txtOpens := false, foutOpens := fun _ => false, rootOpens := true }

/-- A self-trigger run with target 2, ROOT output and a text directory
(`-n 2 --root run.root --txtdir txt_out`). -/
def rootAndTxtdirConfig : Config := { N := 2, rootOut := "run.root", txtdir := "txt_out" }

/-- A self-trigger run with target 1 on channel 9, outside the device range
`0..7` (`-n 1 -c 9`). -/
def channelNineConfig : Config := { N := 1, ch := 9 }

/-- A self-trigger run with target 1 and record length 0 (`-n 1 -r 0`). -/
def zeroRecLenConfig : Config := { N := 1, recLen := 0 }

/-- The samples the pedestal is averaged over, in the words of the
specification: the leading samples of the target channel, at most 200. -/
def usedSamples (e : UINT16_EVENT) (ch : Int) : List Nat :=
  (e.samples ch).take (min (e.ChSize ch) 200)

/-- The pedestal in the words of the specification: the mean, rounded down,
of the samples used. -/
def leadingMean (e : UINT16_EVENT) (ch : Int) : Nat :=
  (usedSamples e ch).sum / (usedSamples e ch).length

/-- The smallest sample of a list (0 for the empty list). -/
def minSample (l : List Nat) : Nat :=
  l.foldr min (l.headD 0)

/-- The largest sample of a list (0 for the empty list). -/
def maxSample (l : List Nat) : Nat :=
  l.foldr max 0

/-- A calibration event of 300 samples on channel 2: 100 samples of 8000, then
100 of 8002, then 100 of 9000 (beyond the first 200). -/
def longEvent : UINT16_EVENT :=
  ⟨[[], [], List.replicate 100 8000 ++ List.replicate 100 8002 ++ List.replicate 100 9000,
    [], [], [], [], []]⟩

/-- A device whose calls all succeed and whose calibration burst decodes to
`longEvent`. -/
def longBurstDevice : Device := goodDevice ⟨4800, 1, some longEvent⟩ []

/-- A self-trigger run on channel 2 with record length 300 (`-c 2 -r 300`). -/
def channelTwoConfig : Config := { ch := 2, recLen := 300 }

/-- Sensor reads of one cycle: channels 0 and 3 answer success with 41 and
43, every other channel fails. -/
def twoSensorReads : Nat → TempRead :=
  fun ch => if ch = 0 then ⟨CAEN_DGTZ_Success, 41⟩
    else if ch = 3 then ⟨CAEN_DGTZ_Success, 43⟩ else ⟨-1, 0⟩

/-- A device on which the calls 0..4 succeed and call number 5 (the
`SetRecordLength` of the program basics) fails with status -2. -/
def sixthCallFails : Device :=
  { ec := fun k => if k = 5 then -2 else CAEN_DGTZ_Success,
    burst := ⟨0, 0, none⟩, readouts := [] }

/-- An event with 64 channel entries: two samples on each of the channels
0..7 and none on the entries 8..63. -/
def boardEvent (sample : Nat) : UINT16_EVENT :=
  ⟨List.replicate 8 [sample, sample + 2] ++ List.replicate 56 []⟩

/-- A device whose calls all succeed, with a calibration event and two
readouts of one event each, all laid out with 64 channel entries. -/
def boardDevice : Device :=
  goodDevice ⟨96, 1, some (boardEvent 8000)⟩
    [⟨96, [some (boardEvent 7990)]⟩, ⟨96, [some (boardEvent 7992)]⟩]

/-- The channel index reads inside the arrays of every event the program
decodes: it is not negative and below the number of channel entries of the
calibration event and of every event of the readouts. There `e->ChSize[ch]`
and `e->DataChannel[ch]` (lines 91-99 and 333-368) are defined. -/
def ChannelInEvents (cfg : Config) (dev : Device) : Prop :=
  0 ≤ cfg.ch ∧
  (∀ e, dev.burst.evt = some e → cfg.ch.toNat < e.DataChannel.length) ∧
  (∀ r ∈ dev.readouts, ∀ e, some e ∈ r.events → cfg.ch.toNat < e.DataChannel.length)

/-- A self-trigger run with target 1 on channel 9 with record length 0
(`-n 1 -c 9 -r 0`). -/
def boardNineConfig : Config := { N := 1, ch := 9, recLen := 0 }

/-! ## Theorems -/

/-- C1: in self trigger mode, for 32-bit pedestal `P` and delta `D`, the
absolute threshold is `P - D` when `D <= P` and `0` when `D > P`; it never
wraps around (it is never above the pedestal). -/
theorem thr_abs_self_floor (P D : Nat) (hP : P < 2 ^ 32) (hD : D < 2 ^ 32) :
    (D ≤ P → thr_abs "self" P D = P - D) ∧
    (D > P → thr_abs "self" P D = 0) ∧
    thr_abs "self" P D ≤ P := by
  unfold thr_abs
  simp only [if_true]
  refine ⟨?_, ?_, ?_⟩
  · intro h
    split
    · rw [show P + 2 ^ 32 - D = (P - D) + 2 ^ 32 by omega, Nat.add_mod_right]
      exact Nat.mod_eq_of_lt (by omega)
    · omega
  · intro h
    rw [if_neg (by omega)]
  · split
    · rw [show P + 2 ^ 32 - D = (P - D) + 2 ^ 32 by omega, Nat.add_mod_right]
      exact le_trans (Nat.mod_le _ _) (Nat.sub_le _ _)
    · exact Nat.zero_le _

/-- Witness of C1: pedestal 33000 and delta 120 give 32880. -/
theorem thr_abs_self_floor_witness :
    thr_abs "self" 33000 120 = 32880 ∧
    ((120 ≤ 33000 → thr_abs "self" 33000 120 = 33000 - 120) ∧
     (120 > 33000 → thr_abs "self" 33000 120 = 0) ∧
     thr_abs "self" 33000 120 ≤ 33000) :=
  ⟨by decide, thr_abs_self_floor 33000 120 (by decide) (by decide)⟩

/-- C2: for every requested channel `C` in `0..7`, even or odd, `pair_mask`
has bit `C` and bit `C xor 1` set, and the pair base is `C` with its last bit
cleared (`C` rounded down to an even index). -/
theorem pair_mask_covers (C : Int) (h0 : 0 ≤ C) (h7 : C ≤ 7) :
    (pair_mask (pair_base C)).testBit C.toNat = true ∧
    (pair_mask (pair_base C)).testBit (C.toNat ^^^ 1) = true ∧
    pair_base C = C - C % 2 ∧
    (pair_base C).toNat = (C.toNat >>> 1) <<< 1 ∧
    (pair_base C).toNat % 2 = 0 := by
  interval_cases C <;> decide

/-- Witness of C2: channel 3 gives base 2 and the mask `0x0C` (channels 2 and 3). -/
theorem pair_mask_covers_witness :
    pair_base 3 = 2 ∧ pair_mask (pair_base 3) = 0x0C ∧
    ((pair_mask (pair_base 3)).testBit (3 : Int).toNat = true ∧
     (pair_mask (pair_base 3)).testBit ((3 : Int).toNat ^^^ 1) = true ∧
     pair_base 3 = 3 - 3 % 2 ∧
     (pair_base 3).toNat = ((3 : Int).toNat >>> 1) <<< 1 ∧
     (pair_base 3).toNat % 2 = 0) :=
  ⟨by decide, by decide, pair_mask_covers 3 (by decide) (by decide)⟩

/-! ### Shared lemmas -/

theorem ok_success (dev : Device) (c : DeviceCall) (log : Log)
    (h : dev.ec log.length = CAEN_DGTZ_Success) :
    ok dev c log = .ret () (log ++ [c]) := by
  simp [ok, h]

theorem ok_failure (dev : Device) (c : DeviceCall) (log : Log)
    (h : dev.ec log.length ≠ CAEN_DGTZ_Success) :
    ok dev c log = .exit 1 (log ++ [c]) := by
  simp [ok, h, die]

theorem okAll_success (dev : Device) (h : ∀ k, dev.ec k = CAEN_DGTZ_Success)
    (cs : List DeviceCall) (log : Log) :
    okAll dev cs log = .ret () (log ++ cs) := by
  induction cs generalizing log with
  | nil => simp [okAll]
  | cons c cs ih => simp [okAll, ok_success dev c log (h _), Run.bind, ih]

/-- C3: when every device call of the calibration burst succeeds and the
burst has zero events, or zero bytes, or a null first event, or a first event
with zero samples on the target channel, `measure_pedestal` returns the
midscale constant `0x8000` (32768) as a normal result; the process does not
exit. -/
theorem measure_pedestal_midscale_fallback (dev : Device) (ch : Int) (maxSamp : Nat)
    (log : Log) (hok : ∀ k, dev.ec k = CAEN_DGTZ_Success)
    (hempty : dev.burst.nev = 0 ∨ dev.burst.bsz = 0 ∨ dev.burst.evt = none ∨
      ∃ e, dev.burst.evt = some e ∧ e.ChSize ch = 0) :
    ∃ log1, measure_pedestal dev ch maxSamp log = .ret 0x8000 log1 := by
  unfold measure_pedestal
  simp only [okAll_success dev hok, Run.bind]
  by_cases h0 : dev.burst.nev = 0 ∨ dev.burst.bsz = 0
  · rw [if_pos h0]
    exact ⟨_, rfl⟩
  · rw [if_neg h0]
    rcases hempty with h | h | h | ⟨e, he, hz⟩
    · exact absurd (Or.inl h) h0
    · exact absurd (Or.inr h) h0
    · rw [h]
      exact ⟨_, rfl⟩
    · rw [he]
      simp only [hz, or_true, if_true]
      exact ⟨_, rfl⟩

/-- Witness of C3: a burst without data on a device whose calls all succeed. -/
theorem measure_pedestal_midscale_fallback_witness :
    ∃ log1, measure_pedestal quietDevice 0 200 [] = .ret 0x8000 log1 :=
  measure_pedestal_midscale_fallback quietDevice 0 200 [] (fun _ => rfl) (Or.inl rfl)

/-! ### Invariants of the acquisition loops -/

theorem writeEvent_within (cfg : Config) (fs : FileSystem) (e : Option UINT16_EVENT)
    (got : Int) (s : Sinks) (h : s.within got) :
    (writeEvent cfg fs e got s).within (got + 1) := by
  obtain ⟨h1, h2, h3⟩ := h
  unfold writeEvent Sinks.within
  dsimp only
  split_ifs <;> (try simp only [List.length_append, List.length_singleton]) <;> omega

theorem eventLoop_bounded (cfg : Config) (dev : Device) (fs : FileSystem)
    (es : List (Option UINT16_EVENT)) :
    ∀ (i : Nat) (st : AcqState), st.Bounded cfg.N →
      (eventLoop cfg dev fs es i st).state.Bounded cfg.N := by
  induction es with
  | nil => intro i st h; simpa [eventLoop, Outcome.state] using h
  | cons e es ih =>
    intro i st h
    unfold eventLoop
    by_cases hlt : st.got < cfg.N
    · rw [if_pos hlt]
      cases hc : okAll dev [.GetEventInfo i, .DecodeEvent] st.log with
      | exit code log => exact h
      | ret u log =>
        apply ih
        obtain ⟨h0, _, hs⟩ := h
        exact ⟨by dsimp only; omega, by dsimp only; omega, writeEvent_within cfg fs e st.got st.sinks hs⟩
    · rw [if_neg hlt]
      exact h

theorem eventLoop_not_polling (cfg : Config) (dev : Device) (fs : FileSystem)
    (es : List (Option UINT16_EVENT)) :
    ∀ (i : Nat) (st st1 : AcqState), eventLoop cfg dev fs es i st ≠ .polling st1 := by
  induction es with
  | nil => intro i st st1; simp [eventLoop]
  | cons e es ih =>
    intro i st st1
    unfold eventLoop
    by_cases hlt : st.got < cfg.N
    · rw [if_pos hlt]
      cases hc : okAll dev [.GetEventInfo i, .DecodeEvent] st.log with
      | exit code log => simp
      | ret u log => exact ih _ _ _
    · rw [if_neg hlt]; simp

theorem acquire_bounded (cfg : Config) (dev : Device) (fs : FileSystem)
    (rs : List Readout) :
    ∀ st : AcqState, st.Bounded cfg.N →
      (acquire cfg dev fs rs st).state.Bounded cfg.N := by
  induction rs with
  | nil =>
    intro st h
    unfold acquire
    split <;> exact h
  | cons r rs ih =>
    intro st h
    unfold acquire
    by_cases hlt : st.got < cfg.N
    · rw [if_pos hlt]
      cases hr : ok dev .ReadData (sendTrigger cfg st.log) with
      | exit code log => exact h
      | ret u log1 =>
        dsimp only
        by_cases hb : r.bsz = 0
        · rw [if_pos hb]
          exact ih _ h
        · rw [if_neg hb]
          cases hn : ok dev .GetNumEvents log1 with
          | exit code log => exact h
          | ret u2 log2 =>
            dsimp only
            have hb2 := eventLoop_bounded cfg dev fs r.events 0 { st with log := log2 } h
            cases he : eventLoop cfg dev fs r.events 0 { st with log := log2 } with
            | done st1 => rw [he] at hb2; exact ih _ hb2
            | exit code st1 => rw [he] at hb2; exact hb2
            | polling st1 => rw [he] at hb2; exact hb2
    · rw [if_neg hlt]
      exact h

theorem acquire_done_reached (cfg : Config) (dev : Device) (fs : FileSystem)
    (rs : List Readout) :
    ∀ st st1 : AcqState, acquire cfg dev fs rs st = .done st1 → ¬ st1.got < cfg.N := by
  induction rs with
  | nil =>
    intro st st1 h
    unfold acquire at h
    split at h
    · simp at h
    · simp only [Outcome.done.injEq] at h
      rw [← h]; assumption
  | cons r rs ih =>
    intro st st1 h
    unfold acquire at h
    by_cases hlt : st.got < cfg.N
    · rw [if_pos hlt] at h
      cases hr : ok dev .ReadData (sendTrigger cfg st.log) with
      | exit code log => rw [hr] at h; simp at h
      | ret u log1 =>
        rw [hr] at h
        dsimp only at h
        by_cases hb : r.bsz = 0
        · rw [if_pos hb] at h
          exact ih _ _ h
        · rw [if_neg hb] at h
          cases hn : ok dev .GetNumEvents log1 with
          | exit code log => rw [hn] at h; simp at h
          | ret u2 log2 =>
            rw [hn] at h
            dsimp only at h
            cases he : eventLoop cfg dev fs r.events 0 { st with log := log2 } with
            | done st2 => rw [he] at h; exact ih _ _ h
            | exit code st2 => rw [he] at h; simp at h
            | polling st2 => rw [he] at h; simp at h
    · rw [if_neg hlt] at h
      simp only [Outcome.done.injEq] at h
      rw [← h]; exact hlt

theorem swEventLoop_bounded (N : Int) (es : List UINT16_EVENT) :
    ∀ st : SwState, st.Bounded N → (swEventLoop N es st).Bounded N := by
  induction es with
  | nil => intro st h; simpa [swEventLoop] using h
  | cons e es ih =>
    intro st h
    unfold swEventLoop
    obtain ⟨h0, h1, h2⟩ := h
    split_ifs with hlt hs
    · apply ih
      refine ⟨by dsimp only; omega, by dsimp only; omega, ?_⟩
      simp only [List.length_append, List.length_singleton]
      omega
    · exact ih _ ⟨h0, h1, h2⟩
    · exact ⟨h0, h1, h2⟩

theorem swAcquire_bounded (N : Int) (cs : List SwCycle) :
    ∀ st : SwState, st.Bounded N → (swAcquire N cs st).state.Bounded N := by
  induction cs with
  | nil =>
    intro st h
    unfold swAcquire
    split <;> exact h
  | cons c cs ih =>
    intro st h
    unfold swAcquire
    have h1 : SwState.Bounded N { st with tried := st.tried + 1 } := h
    split_ifs
    · exact h
    · exact ih _ h1
    · exact ih _ (swEventLoop_bounded N c.events _ h1)
    · exact h

theorem swAcquire_done_reached (N : Int) (cs : List SwCycle) :
    ∀ st st1 : SwState, swAcquire N cs st = .done st1 → ¬ st1.acquired < N := by
  induction cs with
  | nil =>
    intro st st1 h
    unfold swAcquire at h
    split at h
    · simp at h
    · simp only [SwOutcome.done.injEq] at h
      rw [← h]; assumption
  | cons c cs ih =>
    intro st st1 h
    unfold swAcquire at h
    split_ifs at h with hlt hstop hb
    · exact ih _ _ h
    · exact ih _ _ h
    · simp only [SwOutcome.done.injEq] at h
      rw [← h]; exact hlt

/-! ### Exit codes -/

theorem Run.bind_exit {α β : Type} (r : Run α) (f : α → Log → Run β) (c : Int) (l : Log)
    (h : r.bind f = .exit c l) :
    r = .exit c l ∨ ∃ a l1, r = .ret a l1 ∧ f a l1 = .exit c l := by
  cases r with
  | ret a l1 => exact Or.inr ⟨a, l1, rfl, h⟩
  | exit c1 l1 => simpa [Run.bind] using h

theorem ok_exit_code (dev : Device) (c : DeviceCall) (log l : Log) (code : Int)
    (h : ok dev c log = .exit code l) : code = 1 := by
  unfold ok at h
  split at h
  · simp only [Run.exit.injEq, die] at h
    exact h.1.symm
  · simp at h

theorem okAll_exit_code (dev : Device) (cs : List DeviceCall) :
    ∀ (log l : Log) (code : Int), okAll dev cs log = .exit code l → code = 1 := by
  induction cs with
  | nil => intro log l code h; simp [okAll] at h
  | cons c cs ih =>
    intro log l code h
    unfold okAll at h
    rcases Run.bind_exit _ _ _ _ h with h1 | ⟨_, l1, _, h2⟩
    · exact ok_exit_code dev c log l code h1
    · exact ih _ _ _ h2

theorem measure_pedestal_exit_code (dev : Device) (ch : Int) (maxSamp : Nat) (log l : Log)
    (code : Int) (h : measure_pedestal dev ch maxSamp log = .exit code l) : code = 1 := by
  unfold measure_pedestal at h
  rcases Run.bind_exit _ _ _ _ h with h1 | ⟨_, l1, _, h2⟩
  · exact okAll_exit_code _ _ _ _ _ h1
  · split at h2
    · simp at h2
    · rcases Run.bind_exit _ _ _ _ h2 with h3 | ⟨_, l2, _, h4⟩
      · exact okAll_exit_code _ _ _ _ _ h3
      · split at h4
        · simp at h4
        · split at h4 <;> simp at h4

theorem configure_exit_code (cfg : Config) (dev : Device) (l : Log) (code : Int)
    (h : configure cfg dev = .exit code l) : code = 1 ∨ code = 2 := by
  unfold configure at h
  rcases Run.bind_exit _ _ _ _ h with h1 | ⟨_, l1, _, h2⟩
  · exact Or.inl (okAll_exit_code _ _ _ _ _ h1)
  · split at h2
    · simp only [Run.exit.injEq] at h2
      exact Or.inr h2.1.symm
    · rcases Run.bind_exit _ _ _ _ h2 with h3 | ⟨_, l2, _, h4⟩
      · exact Or.inl (okAll_exit_code _ _ _ _ _ h3)
      · rcases Run.bind_exit _ _ _ _ h4 with h5 | ⟨_, l3, _, h6⟩
        · exact Or.inl (measure_pedestal_exit_code _ _ _ _ _ _ h5)
        · rcases Run.bind_exit _ _ _ _ h6 with h7 | ⟨_, l4, _, h8⟩
          · exact Or.inl (okAll_exit_code _ _ _ _ _ h7)
          · simp at h8

theorem eventLoop_exit_code (cfg : Config) (dev : Device) (fs : FileSystem)
    (es : List (Option UINT16_EVENT)) :
    ∀ (i : Nat) (st st1 : AcqState) (code : Int),
      eventLoop cfg dev fs es i st = .exit code st1 → code = 1 := by
  induction es with
  | nil => intro i st st1 code h; simp [eventLoop] at h
  | cons e es ih =>
    intro i st st1 code h
    unfold eventLoop at h
    by_cases hlt : st.got < cfg.N
    · rw [if_pos hlt] at h
      cases hc : okAll dev [.GetEventInfo i, .DecodeEvent] st.log with
      | exit c log =>
        rw [hc] at h
        simp only [Outcome.exit.injEq] at h
        rw [← h.1]
        exact okAll_exit_code _ _ _ _ _ hc
      | ret u log => rw [hc] at h; exact ih _ _ _ _ h
    · rw [if_neg hlt] at h; simp at h

theorem acquire_exit_code (cfg : Config) (dev : Device) (fs : FileSystem)
    (rs : List Readout) :
    ∀ (st st1 : AcqState) (code : Int),
      acquire cfg dev fs rs st = .exit code st1 → code = 1 := by
  induction rs with
  | nil =>
    intro st st1 code h
    unfold acquire at h
    split at h <;> simp at h
  | cons r rs ih =>
    intro st st1 code h
    unfold acquire at h
    by_cases hlt : st.got < cfg.N
    · rw [if_pos hlt] at h
      cases hr : ok dev .ReadData (sendTrigger cfg st.log) with
      | exit c log =>
        rw [hr] at h
        simp only [Outcome.exit.injEq] at h
        rw [← h.1]
        exact ok_exit_code _ _ _ _ _ hr
      | ret u log1 =>
        rw [hr] at h
        dsimp only at h
        by_cases hb : r.bsz = 0
        · rw [if_pos hb] at h
          exact ih _ _ _ h
        · rw [if_neg hb] at h
          cases hn : ok dev .GetNumEvents log1 with
          | exit c log =>
            rw [hn] at h
            simp only [Outcome.exit.injEq] at h
            rw [← h.1]
            exact ok_exit_code _ _ _ _ _ hn
          | ret u2 log2 =>
            rw [hn] at h
            dsimp only at h
            cases he : eventLoop cfg dev fs r.events 0 { st with log := log2 } with
            | done st2 => rw [he] at h; exact ih _ _ _ h
            | exit c st2 =>
              rw [he] at h
              simp only [Outcome.exit.injEq] at h
              rw [← h.1]
              exact eventLoop_exit_code _ _ _ _ _ _ _ _ he
            | polling st2 => exact absurd he (eventLoop_not_polling _ _ _ _ _ _ _)
    · rw [if_neg hlt] at h; simp at h

/-! ### The whole threshold program -/

theorem AcqState.bounded_init (N : Int) (hN : 0 ≤ N) (log : Log) :
    AcqState.Bounded N { log := log } := by
  refine ⟨le_refl _, hN, ?_, ?_, ?_⟩ <;> simp

theorem main_bounded (cfg : Config) (dev : Device) (fs : FileSystem) (hN : 0 ≤ cfg.N) :
    (main cfg dev fs).state.Bounded cfg.N := by
  unfold main
  cases hc : configure cfg dev with
  | exit code log => exact AcqState.bounded_init _ hN _
  | ret ped log1 =>
    dsimp only
    cases hs : okAll dev [.ClearData, .SWStartAcquisition, .MallocReadoutBuffer,
        .AllocateEvent] log1 with
    | exit code log => exact AcqState.bounded_init _ hN _
    | ret u log2 =>
      dsimp only
      have hb := acquire_bounded cfg dev fs dev.readouts { log := log2 }
        (AcqState.bounded_init _ hN _)
      cases ha : acquire cfg dev fs dev.readouts { log := log2 } with
      | done st =>
        rw [ha] at hb
        dsimp only
        cases hk : ok dev .SWStopAcquisition st.log with
        | exit code log => exact hb
        | ret u3 log3 => exact hb
      | exit code st => rw [ha] at hb; exact hb
      | polling st => rw [ha] at hb; exact hb

theorem main_exit_zero (cfg : Config) (dev : Device) (fs : FileSystem) (st : AcqState)
    (h : main cfg dev fs = .exit 0 st) : ¬ st.got < cfg.N := by
  unfold main at h
  cases hc : configure cfg dev with
  | exit code log =>
    rw [hc] at h
    simp only [Outcome.exit.injEq] at h
    rcases configure_exit_code _ _ _ _ hc with h1 | h1 <;> omega
  | ret ped log1 =>
    rw [hc] at h
    dsimp only at h
    cases hs : okAll dev [.ClearData, .SWStartAcquisition, .MallocReadoutBuffer,
        .AllocateEvent] log1 with
    | exit code log =>
      rw [hs] at h
      simp only [Outcome.exit.injEq] at h
      have := okAll_exit_code _ _ _ _ _ hs
      omega
    | ret u log2 =>
      rw [hs] at h
      dsimp only at h
      cases ha : acquire cfg dev fs dev.readouts { log := log2 } with
      | done st1 =>
        rw [ha] at h
        dsimp only at h
        have hd := acquire_done_reached _ _ _ _ _ _ ha
        cases hk : ok dev .SWStopAcquisition st1.log with
        | exit code log =>
          rw [hk] at h
          simp only [Outcome.exit.injEq] at h
          have := ok_exit_code _ _ _ _ _ hk
          omega
        | ret u3 log3 =>
          rw [hk] at h
          simp only [Outcome.exit.injEq, true_and] at h
          rw [← h]
          exact hd
      | exit code st1 =>
        rw [ha] at h
        simp only [Outcome.exit.injEq] at h
        have := acquire_exit_code _ _ _ _ _ _ _ ha
        omega
      | polling st1 => rw [ha] at h; simp at h

/-- C4: for every target `N >= 0` and every sequence of readout buffers, the
acquisition loops of both programs never dispatch more than `N` events (the
count and every sink stay within `N`), and when the loop is left without
cancellation the acquired count is exactly `N`. Stated for the loop of the
threshold program from any log, for the whole threshold program (normal
completion, exit code 0), and for the loop of `daq_sw.cpp`. -/
theorem acquired_count_never_exceeds_target (cfg : Config) (dev : Device) (fs : FileSystem)
    (rs : List Readout) (log : Log) (N : Int) (cycles : List SwCycle)
    (hN : 0 ≤ cfg.N) (hN1 : 0 ≤ N) :
    ((acquire cfg dev fs rs { log := log }).state.got ≤ cfg.N ∧
      (acquire cfg dev fs rs { log := log }).state.sinks.within cfg.N ∧
      ∀ st, acquire cfg dev fs rs { log := log } = .done st → st.got = cfg.N) ∧
    ((main cfg dev fs).state.got ≤ cfg.N ∧
      (main cfg dev fs).state.sinks.within cfg.N ∧
      ∀ st, main cfg dev fs = .exit 0 st → st.got = cfg.N) ∧
    ((swAcquire N cycles {}).state.acquired ≤ N ∧
      ((swAcquire N cycles {}).state.written.length : Int) ≤ N ∧
      ∀ st, swAcquire N cycles {} = .done st → st.acquired = N) := by
  have within_mono : ∀ (s : Sinks) (a b : Int), a ≤ b → s.within a → s.within b := by
    intro s a b hab h
    exact ⟨le_trans h.1 hab, le_trans h.2.1 hab, le_trans h.2.2 hab⟩
  have ha := acquire_bounded cfg dev fs rs { log := log } (AcqState.bounded_init _ hN _)
  have hm := main_bounded cfg dev fs hN
  have hs := swAcquire_bounded N cycles {} ⟨le_refl _, hN1, rfl⟩
  refine ⟨⟨ha.2.1, within_mono _ _ _ ha.2.1 ha.2.2, ?_⟩,
    ⟨hm.2.1, within_mono _ _ _ hm.2.1 hm.2.2, ?_⟩, ⟨hs.2.1, ?_, ?_⟩⟩
  · intro st hd
    have h1 := acquire_done_reached _ _ _ _ _ _ hd
    rw [hd] at ha
    have h2 : st.got ≤ cfg.N := ha.2.1
    omega
  · intro st hd
    have h1 := main_exit_zero _ _ _ _ hd
    rw [hd] at hm
    have h2 : st.got ≤ cfg.N := hm.2.1
    omega
  · rw [hs.2.2]; exact hs.2.1
  · intro st hd
    have h1 := swAcquire_done_reached _ _ _ _ hd
    rw [hd] at hs
    have h2 : st.acquired ≤ N := hs.2.1
    omega

/-- Witness of C4: target 2, an empty readout and then a buffer of three
events; both programs stop at exactly 2 acquired events. -/
theorem acquired_count_never_exceeds_target_witness :
    (main swTwoConfig burstyDevice allOpen).state.got = 2 ∧
    (swAcquire 2 burstyCycles {}).state.acquired = 2 ∧
    (((acquire swTwoConfig burstyDevice allOpen burstyDevice.readouts { log := [] }).state.got
        ≤ swTwoConfig.N ∧
      (acquire swTwoConfig burstyDevice allOpen burstyDevice.readouts
        { log := [] }).state.sinks.within swTwoConfig.N ∧
      ∀ st, acquire swTwoConfig burstyDevice allOpen burstyDevice.readouts { log := [] }
        = .done st → st.got = swTwoConfig.N) ∧
    ((main swTwoConfig burstyDevice allOpen).state.got ≤ swTwoConfig.N ∧
      (main swTwoConfig burstyDevice allOpen).state.sinks.within swTwoConfig.N ∧
      ∀ st, main swTwoConfig burstyDevice allOpen = .exit 0 st → st.got = swTwoConfig.N) ∧
    ((swAcquire 2 burstyCycles {}).state.acquired ≤ 2 ∧
      ((swAcquire 2 burstyCycles {}).state.written.length : Int) ≤ 2 ∧
      ∀ st, swAcquire 2 burstyCycles {} = .done st → st.acquired = 2)) :=
  ⟨by decide, by decide,
    acquired_count_never_exceeds_target swTwoConfig burstyDevice allOpen
      burstyDevice.readouts [] 2 burstyCycles (by decide) (by decide)⟩

/-- C5 (the code departs from it): with target 1 and a buffer whose only
event has zero samples on the target channel, the threshold program counts
the event (`got` becomes 1) and completes with exit code 0 although nothing
was written to any sink; the loop of `daq_sw.cpp` does not count the same
event and keeps polling. -/
theorem zero_sample_event_is_counted :
    (main zeroSampleConfig zeroSampleDevice allOpen).code = some 0 ∧
    (main zeroSampleConfig zeroSampleDevice allOpen).state.got = 1 ∧
    (main zeroSampleConfig zeroSampleDevice allOpen).state.sinks = {} ∧
    swAcquire 1 [⟨false, 24, [eventCh0 []]⟩] {} = .polling { acquired := 0, tried := 1 } := by
  decide

/-! ### Sequence numbers -/

theorem swEventLoop_numbered (N : Int) (es : List UINT16_EVENT) :
    ∀ st : SwState, st.Numbered → (swEventLoop N es st).Numbered := by
  induction es with
  | nil => intro st h; simpa [swEventLoop] using h
  | cons e es ih =>
    intro st h
    unfold swEventLoop
    split_ifs with hlt hs
    · apply ih
      obtain ⟨h1, h2⟩ := h
      refine ⟨by simp only [List.length_append, List.length_singleton]; omega, ?_⟩
      intro k hk
      simp only [List.length_append, List.length_singleton] at hk
      by_cases hk1 : k < st.written.length
      · simp only [List.get_eq_getElem, List.getElem_append_left hk1]
        simpa using h2 k hk1
      · have hk2 : k = st.written.length := by omega
        subst hk2
        simp [h1]
    · exact ih _ h
    · exact h

/-- In `daq_sw.cpp` the `k`-th graph written carries the number `k`,
whatever events without samples are interleaved. -/
theorem swAcquire_numbered (N : Int) (cs : List SwCycle) :
    ∀ st : SwState, st.Numbered → (swAcquire N cs st).state.Numbered := by
  induction cs with
  | nil =>
    intro st h
    unfold swAcquire
    split <;> exact h
  | cons c cs ih =>
    intro st h
    unfold swAcquire
    have h1 : SwState.Numbered { st with tried := st.tried + 1 } := h
    split_ifs
    · exact h
    · exact ih _ h1
    · exact ih _ (swEventLoop_numbered N c.events _ h1)
    · exact h

set_option maxRecDepth 100000 in
/-- The scenario of the specification holds in the threshold program: five
software triggers answered by one 1024-sample event each give the waveforms
numbered 0..4, each of 1024 samples. -/
theorem five_software_events_numbered :
    (main fiveSwConfig fiveSwDevice allOpen).code = some 0 ∧
    (main fiveSwConfig fiveSwDevice allOpen).state.got = 5 ∧
    (main fiveSwConfig fiveSwDevice allOpen).state.sinks.root.map Record.seq
      = [0, 1, 2, 3, 4] ∧
    (main fiveSwConfig fiveSwDevice allOpen).state.sinks.root.map (fun r => r.samples.length)
      = [1024, 1024, 1024, 1024, 1024] := by
  decide

/-- C6 (the code departs from it): with an event of zero samples ahead of
an event with samples in one buffer, the first (and only) waveform the
threshold program writes carries sequence number 1, not 0; the loop of
`daq_sw.cpp` names the same waveform 0. -/
theorem sequence_gap_after_zero_sample_event :
    (main gapConfig gapDevice allOpen).state.sinks.root = [⟨1, [5, 6]⟩] ∧
    (main gapConfig gapDevice allOpen).code = some 0 ∧
    (swAcquire 1 [⟨false, 48, [eventCh0 [], eventCh0 [5, 6]]⟩] {}).state.written
      = [⟨0, [5, 6]⟩] := by
  decide

/-! ### Logs of straight-line call sequences -/

theorem okAll_ret_log (dev : Device) (cs : List DeviceCall) :
    ∀ (log l : Log) (u : Unit), okAll dev cs log = .ret u l →
      l = log ++ cs ∧ ∀ k, k < cs.length → dev.ec (log.length + k) = CAEN_DGTZ_Success := by
  induction cs with
  | nil =>
    intro log l u h
    simp only [okAll, Run.ret.injEq, true_and] at h
    simp [h]
  | cons c cs ih =>
    intro log l u h
    unfold okAll at h
    by_cases hc : dev.ec log.length = CAEN_DGTZ_Success
    · rw [ok_success dev c log hc] at h
      simp only [Run.bind] at h
      obtain ⟨h1, h2⟩ := ih _ _ _ h
      refine ⟨by simp [h1], ?_⟩
      intro k hk
      cases k with
      | zero => simpa using hc
      | succ k =>
        have := h2 k (by simpa using hk)
        simp only [List.length_append, List.length_singleton] at this
        rw [← this]
        congr 1
        omega
    · rw [ok_failure dev c log hc] at h
      simp [Run.bind] at h

theorem okAll_exit_log (dev : Device) (cs : List DeviceCall) :
    ∀ (log l : Log) (code : Int), okAll dev cs log = .exit code l →
      ∃ pre, pre <+: cs ∧ pre ≠ [] ∧ l = log ++ pre ∧
        dev.ec (log.length + (pre.length - 1)) ≠ CAEN_DGTZ_Success := by
  induction cs with
  | nil => intro log l code h; simp [okAll] at h
  | cons c cs ih =>
    intro log l code h
    unfold okAll at h
    by_cases hc : dev.ec log.length = CAEN_DGTZ_Success
    · rw [ok_success dev c log hc] at h
      simp only [Run.bind] at h
      obtain ⟨pre, hp, hne, hl, hf⟩ := ih _ _ _ h
      refine ⟨c :: pre, ?_, by simp, by simp [hl], ?_⟩
      · obtain ⟨t, ht⟩ := hp
        exact ⟨t, by simp [ht]⟩
      · have hpos : 0 < pre.length := List.length_pos.mpr hne
        simp only [List.length_append, List.length_singleton] at hf
        simp only [List.length_cons, Nat.add_sub_cancel]
        rw [show log.length + pre.length = log.length + 1 + (pre.length - 1) by omega]
        exact hf
    · rw [ok_failure dev c log hc] at h
      simp only [Run.bind, Run.exit.injEq] at h
      exact ⟨[c], ⟨cs, rfl⟩, by simp, h.2.symm, by simpa using hc⟩

theorem okAll_exit_first (dev : Device) (cs : List DeviceCall) :
    ∀ (log l : Log) (code : Int), okAll dev cs log = .exit code l →
      ∃ k, k < cs.length ∧ l = log ++ cs.take (k + 1) ∧
        dev.ec (log.length + k) ≠ CAEN_DGTZ_Success ∧
        ∀ j, j < k → dev.ec (log.length + j) = CAEN_DGTZ_Success := by
  induction cs with
  | nil => intro log l code h; simp [okAll] at h
  | cons c cs ih =>
    intro log l code h
    unfold okAll at h
    by_cases hc : dev.ec log.length = CAEN_DGTZ_Success
    · rw [ok_success dev c log hc] at h
      simp only [Run.bind] at h
      obtain ⟨k, hk, hl, hf, hbefore⟩ := ih _ _ _ h
      simp only [List.length_append, List.length_singleton] at hf hbefore
      refine ⟨k + 1, by simpa using hk, by simp [hl], ?_, ?_⟩
      · rw [show log.length + (k + 1) = log.length + 1 + k by omega]
        exact hf
      · intro j hj
        cases j with
        | zero => simpa using hc
        | succ j =>
          rw [show log.length + (j + 1) = log.length + 1 + j by omega]
          exact hbefore j (by omega)
    · rw [ok_failure dev c log hc] at h
      simp only [Run.bind, Run.exit.injEq] at h
      exact ⟨0, by simp, by simp [h.2], by simpa using hc, fun j hj => absurd hj (by omega)⟩

theorem programBasics_length (cfg : Config) : (programBasics cfg).length = 32 := by
  simp [programBasics, List.range_succ]

theorem triggerSelection_unknown (trig : String) (h1 : trig ≠ "sw") (h2 : trig ≠ "ext")
    (h3 : trig ≠ "self") : triggerSelection trig = none := by
  simp [triggerSelection, h1, h2, h3]

/-- C7 as stated fails: with the trigger mode `foo` and a device whose calls
all succeed, the process ends with exit code 2 after the 32 driver calls of
open, reset, board info and program basics; the sequence of device calls is
not empty. -/
theorem unknown_mode_after_device_calls :
    main unknownModeConfig quietDevice allOpen
      = .exit 2 { log := programBasics unknownModeConfig } ∧
    (main unknownModeConfig quietDevice allOpen).state.log.length = 32 ∧
    (main unknownModeConfig quietDevice allOpen).state.log.head? = some (.OpenDigitizer 0) ∧
    (main unknownModeConfig quietDevice allOpen).state.log ≠ [] := by
  decide

/-- C7 amended: for every trigger-mode string other than `sw`, `ext` and
`self`, the process exits having issued a non-empty prefix of the 32 checked
calls of open, reset, board info and program basics, and nothing else (no
trigger-selection, pedestal, threshold or acquisition call, nothing acquired
or written). If these 32 calls all succeed the exit code is 2 and the log is
exactly these calls; if one of them fails the exit code is 1, and the log ends
at the first failing call: when call `k` is the first to fail, the calls
issued are exactly the first `k + 1` of the 32. -/
theorem unknown_mode_exit_after_basics (cfg : Config) (dev : Device) (fs : FileSystem)
    (h1 : cfg.trig ≠ "sw") (h2 : cfg.trig ≠ "ext") (h3 : cfg.trig ≠ "self") :
    ∃ code log, main cfg dev fs = .exit code { log := log } ∧
      log <+: programBasics cfg ∧ log ≠ [] ∧
      ((∀ k, k < 32 → dev.ec k = CAEN_DGTZ_Success) → code = 2 ∧ log = programBasics cfg) ∧
      ((∃ k, k < 32 ∧ dev.ec k ≠ CAEN_DGTZ_Success) → code = 1) ∧
      (∀ k, k < 32 → dev.ec k ≠ CAEN_DGTZ_Success →
        (∀ j, j < k → dev.ec j = CAEN_DGTZ_Success) →
        code = 1 ∧ log = (programBasics cfg).take (k + 1) ∧ log.length = k + 1 ∧
          log.getLast? = (programBasics cfg).get? k) := by
  have hsel := triggerSelection_unknown cfg.trig h1 h2 h3
  cases hb : okAll dev (programBasics cfg) [] with
  | ret u log1 =>
    obtain ⟨hl, hall⟩ := okAll_ret_log _ _ _ _ _ hb
    simp only [List.nil_append] at hl
    refine ⟨2, programBasics cfg, ?_, List.prefix_refl _, ?_, fun _ => ⟨rfl, rfl⟩, ?_, ?_⟩
    · simp [main, configure, hb, Run.bind, hsel, hl]
    · intro h
      have := congrArg List.length h
      rw [programBasics_length] at this
      simp at this
    · rintro ⟨k, hk, hf⟩
      have := hall k (by rw [programBasics_length]; exact hk)
      simp only [List.length_nil, Nat.zero_add] at this
      exact absurd this hf
    · intro k hk hf _
      have := hall k (by rw [programBasics_length]; exact hk)
      simp only [List.length_nil, Nat.zero_add] at this
      exact absurd this hf
  | exit code log1 =>
    obtain ⟨pre, hp, hne, hl, hf⟩ := okAll_exit_log _ _ _ _ _ hb
    obtain ⟨k0, hk0, hl0, hf0, hbefore0⟩ := okAll_exit_first _ _ _ _ _ hb
    have hcode := okAll_exit_code _ _ _ _ _ hb
    simp only [List.nil_append] at hl
    subst hl
    simp only [List.nil_append, List.length_nil, Nat.zero_add] at hl0 hf0 hbefore0
    rw [programBasics_length] at hk0
    refine ⟨code, log1, ?_, hp, hne, ?_, fun _ => hcode, ?_⟩
    · simp [main, configure, hb, Run.bind]
    · intro hall
      have hlen : log1.length ≤ 32 := by
        have := hp.length_le
        rwa [programBasics_length] at this
      have hpos : 0 < log1.length := List.length_pos.mpr hne
      simp only [List.length_nil, Nat.zero_add] at hf
      exact absurd (hall _ (by omega)) hf
    · intro k hk hfk hbefore
      have hkk : k = k0 := by
        rcases Nat.lt_trichotomy k k0 with h | h | h
        · exact absurd (hbefore0 k h) hfk
        · exact h
        · exact absurd (hbefore k0 h) hf0
      subst hkk
      have hklen : k < (programBasics cfg).length := by
        rw [programBasics_length]; exact hk
      refine ⟨hcode, hl0, ?_, ?_⟩
      · rw [hl0, List.length_take, programBasics_length]
        omega
      · rw [hl0, List.take_succ, List.getLast?_append]
        rw [List.get?_eq_getElem?, List.getElem?_eq_getElem hklen]
        simp

/-- Witness of C7 amended: the mode `foo` on a device whose calls succeed
(exit code 2 after the 32 calls), and on a device whose call number 5 fails:
the process exits with code 1 after exactly the first six calls, the last of
them the failing `SetRecordLength`. -/
theorem unknown_mode_exit_after_basics_witness :
    (∃ code log, main unknownModeConfig quietDevice allOpen = .exit code { log := log } ∧
      log <+: programBasics unknownModeConfig ∧ log ≠ [] ∧
      ((∀ k, k < 32 → quietDevice.ec k = CAEN_DGTZ_Success) →
        code = 2 ∧ log = programBasics unknownModeConfig) ∧
      ((∃ k, k < 32 ∧ quietDevice.ec k ≠ CAEN_DGTZ_Success) → code = 1) ∧
      (∀ k, k < 32 → quietDevice.ec k ≠ CAEN_DGTZ_Success →
        (∀ j, j < k → quietDevice.ec j = CAEN_DGTZ_Success) →
        code = 1 ∧ log = (programBasics unknownModeConfig).take (k + 1) ∧
          log.length = k + 1 ∧ log.getLast? = (programBasics unknownModeConfig).get? k)) ∧
    main unknownModeConfig sixthCallFails allOpen
      = .exit 1 { log := [.OpenDigitizer 0, .Reset, .GetInfo, .SetAcquisitionMode,
          .SetChannelEnableMask 0xFF, .SetRecordLength 1024] } := by
  refine ⟨unknown_mode_exit_after_basics unknownModeConfig quietDevice allOpen
    (by decide) (by decide) (by decide), ?_⟩
  obtain ⟨code, log, hm, _, _, _, _, hfirst⟩ :=
    unknown_mode_exit_after_basics unknownModeConfig sixthCallFails allOpen
      (by decide) (by decide) (by decide)
  obtain ⟨hcode, hlog, _, _⟩ := hfirst 5 (by decide) (by decide) (by decide)
  rw [hm, hcode, hlog]
  decide

/-! ### The software-trigger mode register -/

theorem Run.bind_ret {α β : Type} (r : Run α) (f : α → Log → Run β) (b : β) (l : Log)
    (h : r.bind f = .ret b l) : ∃ a l1, r = .ret a l1 ∧ f a l1 = .ret b l := by
  cases r with
  | ret a l1 => exact ⟨a, l1, rfl, h⟩
  | exit c1 l1 => simp [Run.bind] at h

theorem swTriggerMode_foldl_neutral (t : Log)
    (ht : ∀ c ∈ t, ∀ m, c ≠ DeviceCall.SetSWTriggerMode m) (r : Option TriggerMode) :
    t.foldl swWrite r = r := by
  induction t generalizing r with
  | nil => rfl
  | cons c t ih =>
    simp only [List.foldl_cons]
    have hc := ht c (List.mem_cons_self _ _)
    have hr : swWrite r c = r := by
      cases c <;> first | rfl | exact absurd rfl (hc _)
    rw [hr]
    exact ih (fun c1 h1 => ht c1 (List.mem_cons_of_mem _ h1)) r

theorem swTriggerMode_last_write (l t : Log) (m : TriggerMode)
    (ht : ∀ c ∈ t, ∀ m1, c ≠ DeviceCall.SetSWTriggerMode m1) :
    swTriggerMode (l ++ .SetSWTriggerMode m :: t) = some m := by
  unfold swTriggerMode
  rw [List.foldl_append, List.foldl_cons]
  exact swTriggerMode_foldl_neutral t ht _

theorem measure_pedestal_ret_log (dev : Device) (ch : Int) (maxSamp : Nat) (log l : Log)
    (p : Nat) (h : measure_pedestal dev ch maxSamp log = .ret p l) :
    ∃ t, l = log ++ [.MallocReadoutBuffer, .AllocateEvent] ++ .SetSWTriggerMode .ACQ_ONLY :: t ∧
      ∀ c ∈ t, ∀ m, c ≠ DeviceCall.SetSWTriggerMode m := by
  unfold measure_pedestal at h
  obtain ⟨_, log1, h1, h2⟩ := Run.bind_ret _ _ _ _ h
  obtain ⟨hl1, _⟩ := okAll_ret_log _ _ _ _ _ h1
  subst hl1
  have key : ∀ t2 : Log, (∀ c ∈ t2, ∀ m, c ≠ DeviceCall.SetSWTriggerMode m) →
      l = log ++ [.MallocReadoutBuffer, .AllocateEvent, .SetSWTriggerMode .ACQ_ONLY,
        .SWStartAcquisition, .SendSWtrigger, .ReadData, .SWStopAcquisition,
        .GetNumEvents] ++ t2 →
      ∃ t, l = log ++ [.MallocReadoutBuffer, .AllocateEvent] ++ .SetSWTriggerMode .ACQ_ONLY :: t ∧
        ∀ c ∈ t, ∀ m, c ≠ DeviceCall.SetSWTriggerMode m := by
    intro t2 ht2 hl
    refine ⟨[.SWStartAcquisition, .SendSWtrigger, .ReadData, .SWStopAcquisition,
      .GetNumEvents] ++ t2, by simp [hl], ?_⟩
    intro c hc m
    rcases List.mem_append.mp hc with hc1 | hc1
    · simp only [List.mem_cons, List.mem_singleton, List.not_mem_nil, or_false] at hc1
      rcases hc1 with rfl | rfl | rfl | rfl | rfl <;> simp
    · exact ht2 c hc1 m
  split at h2
  · simp only [Run.ret.injEq] at h2
    refine key [.FreeEvent, .FreeReadoutBuffer] ?_ h2.2.symm
    intro c hc m
    simp only [List.mem_cons, List.mem_singleton, List.not_mem_nil, or_false] at hc
    rcases hc with rfl | rfl <;> simp
  · obtain ⟨_, log2, h3, h4⟩ := Run.bind_ret _ _ _ _ h2
    obtain ⟨hl2, _⟩ := okAll_ret_log _ _ _ _ _ h3
    subst hl2
    have hfin : l = log ++ [.MallocReadoutBuffer, .AllocateEvent, .SetSWTriggerMode .ACQ_ONLY,
        .SWStartAcquisition, .SendSWtrigger, .ReadData, .SWStopAcquisition,
        .GetNumEvents] ++ [.GetEventInfo 0, .DecodeEvent, .FreeEvent, .FreeReadoutBuffer] := by
      split at h4
      · simp only [Run.ret.injEq] at h4
        rw [← h4.2]; simp
      · split at h4 <;>
        · simp only [Run.ret.injEq] at h4
          rw [← h4.2]; simp
    refine key _ ?_ hfin
    intro c hc m
    simp only [List.mem_cons, List.mem_singleton, List.not_mem_nil, or_false] at hc
    rcases hc with rfl | rfl | rfl | rfl <;> simp

theorem armCalls_no_sw_write (cfg : Config) (ped : Nat) :
    ∀ c ∈ armCalls cfg ped, ∀ m, c ≠ DeviceCall.SetSWTriggerMode m := by
  intro c hc m
  unfold armCalls at hc
  split at hc
  · simp only [List.mem_cons, List.mem_singleton, List.not_mem_nil, or_false] at hc
    rcases hc with rfl | rfl | rfl | rfl | rfl <;> simp
  · simp at hc

/-- At the end of a successful configuration the software-trigger mode
register holds `ACQ_ONLY` in every trigger mode: the last write is the one of
`measure_pedestal` (line 71), which nothing undoes. -/
theorem configure_leaves_sw_trigger_enabled (cfg : Config) (dev : Device) (ped : Nat)
    (log : Log) (h : configure cfg dev = .ret ped log) :
    swTriggerMode log = some .ACQ_ONLY := by
  unfold configure at h
  obtain ⟨_, log1, _, h2⟩ := Run.bind_ret _ _ _ _ h
  split at h2
  · simp at h2
  · obtain ⟨_, log2, _, h4⟩ := Run.bind_ret _ _ _ _ h2
    obtain ⟨p, log3, h5, h6⟩ := Run.bind_ret _ _ _ _ h4
    obtain ⟨_, log4, h7, h8⟩ := Run.bind_ret _ _ _ _ h6
    obtain ⟨t, ht, hnt⟩ := measure_pedestal_ret_log _ _ _ _ _ _ h5
    obtain ⟨hl4, _⟩ := okAll_ret_log _ _ _ _ _ h7
    simp only [Run.ret.injEq] at h8
    rw [← h8.2, hl4, ht, read_temperatures]
    rw [List.append_assoc, List.append_assoc]
    apply swTriggerMode_last_write
    intro c hc m
    rcases List.mem_append.mp hc with hc1 | hc1
    · exact hnt c hc1 m
    · rcases List.mem_append.mp hc1 with hc2 | hc2
      · exact armCalls_no_sw_write cfg p c hc2 m
      · obtain ⟨i, _, rfl⟩ := List.mem_map.mp hc2
        simp

/-- C8 (the code departs from it): in self and external mode, on a device
whose calls all succeed, the configuration completes and the software-trigger
mode register then holds `ACQ_ONLY`, not `DISABLED`: the trigger selection
disables it, and the `SetSWTriggerMode(ACQ_ONLY)` of `measure_pedestal`
(line 71) is the last write. -/
theorem sw_trigger_mode_after_configuration :
    swTriggerMode (configure selfConfig calibratedDevice).log = some .ACQ_ONLY ∧
    swTriggerMode (configure extConfig calibratedDevice).log = some .ACQ_ONLY ∧
    swTriggerMode (programBasics selfConfig ++ (triggerSelection "self").getD [])
      = some .DISABLED ∧
    swTriggerMode (programBasics extConfig ++ (triggerSelection "ext").getD [])
      = some .DISABLED ∧
    (main selfConfig calibratedDevice allOpen).code = none ∧
    swTriggerMode (main selfConfig calibratedDevice allOpen).state.log = some .ACQ_ONLY := by
  decide

/-- C9 as stated fails: in a self-trigger run with target 2 on a device
that has two events ready, a failing first `ReadData` of the acquisition loop
ends the process with exit code 1 and nothing acquired; the same run without
the failure completes with 2 events. -/
theorem read_failure_aborts_run :
    (main { N := 2 } readFailDevice allOpen).code = some 1 ∧
    (main { N := 2 } readFailDevice allOpen).state.got = 0 ∧
    (main { N := 2 } readFailDevice allOpen).state.log.getLast? = some .ReadData ∧
    (main { N := 2 } readFailDevice allOpen).state.log.length = 64 ∧
    (main { N := 2 } twoEventDevice allOpen).code = some 0 ∧
    (main { N := 2 } twoEventDevice allOpen).state.got = 2 := by
  decide

/-- C9 amended: in the acquisition loop of the threshold program every
readout call is under `ok`, so a failing `ReadData`, `GetNumEvents`,
`GetEventInfo` or `DecodeEvent` ends the process with exit code 1 at that
call, with the count and the sinks as they were; only a successful `ReadData`
of zero bytes is "no data this cycle", after which the loop goes on with the
next iteration and an unchanged count. -/
theorem readout_failure_is_fatal (cfg : Config) (dev : Device) (fs : FileSystem)
    (r : Readout) (rs : List Readout) (st : AcqState) (hlt : st.got < cfg.N) :
    (dev.ec (sendTrigger cfg st.log).length ≠ CAEN_DGTZ_Success →
      acquire cfg dev fs (r :: rs) st
        = .exit 1 { st with log := sendTrigger cfg st.log ++ [.ReadData] }) ∧
    (dev.ec (sendTrigger cfg st.log).length = CAEN_DGTZ_Success → r.bsz = 0 →
      acquire cfg dev fs (r :: rs) st
        = acquire cfg dev fs rs { st with log := sendTrigger cfg st.log ++ [.ReadData] }) ∧
    (dev.ec (sendTrigger cfg st.log).length = CAEN_DGTZ_Success → r.bsz ≠ 0 →
      dev.ec ((sendTrigger cfg st.log).length + 1) ≠ CAEN_DGTZ_Success →
      acquire cfg dev fs (r :: rs) st
        = .exit 1 { st with log := sendTrigger cfg st.log ++ [.ReadData, .GetNumEvents] }) ∧
    (∀ e es i, dev.ec st.log.length ≠ CAEN_DGTZ_Success →
      eventLoop cfg dev fs (e :: es) i st
        = .exit 1 { st with log := st.log ++ [.GetEventInfo i] }) ∧
    (∀ e es i, dev.ec st.log.length = CAEN_DGTZ_Success →
      dev.ec (st.log.length + 1) ≠ CAEN_DGTZ_Success →
      eventLoop cfg dev fs (e :: es) i st
        = .exit 1 { st with log := st.log ++ [.GetEventInfo i, .DecodeEvent] }) ∧
    (dev.ec (sendTrigger cfg st.log).length = CAEN_DGTZ_Success → r.bsz ≠ 0 →
      dev.ec ((sendTrigger cfg st.log).length + 1) = CAEN_DGTZ_Success →
      ∀ code st1,
        eventLoop cfg dev fs r.events 0
          { st with log := sendTrigger cfg st.log ++ [.ReadData, .GetNumEvents] }
          = .exit code st1 →
        acquire cfg dev fs (r :: rs) st = .exit code st1) := by
  refine ⟨?_, ?_, ?_, ?_, ?_, ?_⟩
  · intro h
    rw [acquire, if_pos hlt, ok_failure _ _ _ h]
  · intro h hb
    rw [acquire, if_pos hlt, ok_success _ _ _ h]
    simp only [hb, if_true]
  · intro h hb h1
    have h2 : dev.ec (sendTrigger cfg st.log ++ [DeviceCall.ReadData]).length
        ≠ CAEN_DGTZ_Success := by simpa using h1
    rw [acquire, if_pos hlt, ok_success _ _ _ h]
    simp only [hb, if_false]
    rw [ok_failure _ _ _ h2]
    simp
  · intro e es i h
    rw [eventLoop, if_pos hlt]
    simp [okAll, ok_failure _ _ _ h, Run.bind]
  · intro e es i h h1
    have h2 : dev.ec (st.log ++ [DeviceCall.GetEventInfo i]).length ≠ CAEN_DGTZ_Success := by
      simpa using h1
    rw [eventLoop, if_pos hlt]
    simp [okAll, ok_success _ _ _ h, ok_failure _ _ _ h2, Run.bind]
  · intro h hb h1 code st1 he
    have h2 : dev.ec (sendTrigger cfg st.log ++ [DeviceCall.ReadData]).length
        = CAEN_DGTZ_Success := by simpa using h1
    rw [acquire, if_pos hlt, ok_success _ _ _ h]
    simp only [hb, if_false]
    rw [ok_success _ _ _ h2]
    simp only [List.append_assoc, List.singleton_append] at he ⊢
    rw [he]

/-- Witness of C9 amended: a failing `ReadData` at the start of a loop with
two readouts pending. -/
theorem readout_failure_is_fatal_witness :
    (0 : Int) < 2 ∧
    acquire { N := 2 } firstCallFails allOpen twoReadouts {}
      = .exit 1 { log := [.ReadData] } :=
  ⟨by decide,
    (readout_failure_is_fatal { N := 2 } firstCallFails allOpen ⟨24, [some (eventCh0 [1, 2])]⟩
      [⟨24, [some (eventCh0 [3, 4])]⟩] {} (by decide)).1 (by decide)⟩

/-- C10 as stated fails: with both `--txt` and `--txtdir` configured and
writable, an event with three samples on the target channel is written to the
per-event directory only; the aggregated text file receives nothing. -/
theorem both_text_sinks_only_one_written :
    txt_out_is_open bothTextConfig allOpen = true ∧
    writeEvent bothTextConfig allOpen (some (eventCh0 [7, 8, 9])) 0 {}
      = { txtdir := [⟨0, [7, 8, 9]⟩], txt := [], root := [] } ∧
    (main bothTextConfig
      (goodDevice ⟨24, 1, some (eventCh0 [100, 102, 98, 100])⟩ [⟨24, [some (eventCh0 [7, 8, 9])]⟩])
      allOpen).state.sinks = { txtdir := [⟨0, [7, 8, 9]⟩], txt := [], root := [] } ∧
    (main bothTextConfig
      (goodDevice ⟨24, 1, some (eventCh0 [100, 102, 98, 100])⟩ [⟨24, [some (eventCh0 [7, 8, 9])]⟩])
      allOpen).code = some 0 := by
  decide

/-- C10 amended: an event with a non-empty sample array on the target
channel is written to the ROOT sink exactly when that sink is configured and
open, and to at most one text sink: to the per-event directory exactly when
`--txtdir` is configured and the file of the event opens, and to the
aggregated text file exactly when `--txtdir` is not configured and `--txt` is
configured and open. The sinks keep what they held. -/
theorem event_delivery_per_sink (cfg : Config) (fs : FileSystem) (ev : UINT16_EVENT)
    (got : Int) (s : Sinks) (hns : 0 < ev.ChSize cfg.ch) :
    writeEvent cfg fs (some ev) got s =
      { txtdir := s.txtdir ++
          (if cfg.txtdir ≠ "" ∧ fs.foutOpens got = true then [recordOf cfg ev got] else []),
        txt := s.txt ++
          (if cfg.txtdir = "" ∧ cfg.txt ≠ "" ∧ fs.txtOpens = true
            then [recordOf cfg ev got] else []),
        root := s.root ++
          (if cfg.rootOut ≠ "" ∧ fs.rootOpens = true then [recordOf cfg ev got] else []) } := by
  unfold writeEvent txt_out_is_open root_ready recordOf
  by_cases h1 : cfg.txtdir = "" <;> by_cases h2 : cfg.txt = "" <;>
    by_cases h3 : cfg.rootOut = "" <;> by_cases h4 : fs.foutOpens got = true <;>
    by_cases h5 : fs.txtOpens = true <;> by_cases h6 : fs.rootOpens = true <;>
    simp [h1, h2, h3, h4, h5, h6, hns]

/-- Witness of C10 amended: a three-sample event with all sinks configured. -/
theorem event_delivery_per_sink_witness :
    writeEvent { txt := "all.txt", txtdir := "txt_out", rootOut := "run.root" } allOpen
        (some (eventCh0 [7, 8, 9])) 0 {}
      = { txtdir := [⟨0, [7, 8, 9]⟩], txt := [], root := [⟨0, [7, 8, 9]⟩] } :=
  event_delivery_per_sink { txt := "all.txt", txtdir := "txt_out", rootOut := "run.root" }
    allOpen (eventCh0 [7, 8, 9]) 0 {} (by decide)

/-! ### Pair arming stays on the device -/

/-- C15: for every channel `C` in `0..7`, the two channels that receive a
trigger-threshold write in self mode are `pair_base` and `pair_base + 1`, both
in `0..7`, and `pair_mask` has exactly two bits set, adjacent, equal to
`3 << pair_base` and contained in the 8-channel mask `0xFF`. -/
theorem pair_stays_within_device (cfg : Config) (ped : Nat) (hself : cfg.trig = "self")
    (h0 : 0 ≤ cfg.ch) (h7 : cfg.ch ≤ 7) :
    thresholdWrites (armCalls cfg ped) = [pair_base cfg.ch, pair_base cfg.ch + 1] ∧
    (0 ≤ pair_base cfg.ch ∧ pair_base cfg.ch ≤ 7) ∧
    (0 ≤ pair_base cfg.ch + 1 ∧ pair_base cfg.ch + 1 ≤ 7) ∧
    bitCount32 (pair_mask (pair_base cfg.ch)) = 2 ∧
    pair_mask (pair_base cfg.ch) = 3 <<< (pair_base cfg.ch).toNat ∧
    pair_mask (pair_base cfg.ch)
      = 2 ^ (pair_base cfg.ch).toNat + 2 ^ ((pair_base cfg.ch).toNat + 1) ∧
    pair_mask (pair_base cfg.ch) &&& 0xFF = pair_mask (pair_base cfg.ch) := by
  refine ⟨by simp [armCalls, hself, thresholdWrites, thresholdWrite], ?_⟩
  generalize cfg.ch = C at h0 h7
  interval_cases C <;> decide

/-- Witness of C15: channel 5 arms channels 4 and 5 with the mask `0x30`. -/
theorem pair_stays_within_device_witness :
    pair_mask (pair_base 5) = 0x30 ∧
    thresholdWrites (armCalls selfCh5Config 33000) = [4, 5] ∧
    (thresholdWrites (armCalls selfCh5Config 33000)
      = [pair_base selfCh5Config.ch, pair_base selfCh5Config.ch + 1] ∧
    (0 ≤ pair_base selfCh5Config.ch ∧ pair_base selfCh5Config.ch ≤ 7) ∧
    (0 ≤ pair_base selfCh5Config.ch + 1 ∧ pair_base selfCh5Config.ch + 1 ≤ 7) ∧
    bitCount32 (pair_mask (pair_base selfCh5Config.ch)) = 2 ∧
    pair_mask (pair_base selfCh5Config.ch) = 3 <<< (pair_base selfCh5Config.ch).toNat ∧
    pair_mask (pair_base selfCh5Config.ch)
      = 2 ^ (pair_base selfCh5Config.ch).toNat
        + 2 ^ ((pair_base selfCh5Config.ch).toNat + 1) ∧
    pair_mask (pair_base selfCh5Config.ch) &&& 0xFF
      = pair_mask (pair_base selfCh5Config.ch)) :=
  ⟨by decide, by decide,
    pair_stays_within_device selfCh5Config 33000 rfl (by decide) (by decide)⟩

/-! ### Sink isolation -/

theorem writeEvent_agree (cfg : Config) (fs1 fs2 : FileSystem) (e : Option UINT16_EVENT)
    (got : Int) (s1 s2 : Sinks) :
    (fs1.rootOpens = fs2.rootOpens → s1.root = s2.root →
      (writeEvent cfg fs1 e got s1).root = (writeEvent cfg fs2 e got s2).root) ∧
    (fs1.foutOpens = fs2.foutOpens → s1.txtdir = s2.txtdir →
      (writeEvent cfg fs1 e got s1).txtdir = (writeEvent cfg fs2 e got s2).txtdir) ∧
    (fs1.txtOpens = fs2.txtOpens → s1.txt = s2.txt →
      (writeEvent cfg fs1 e got s1).txt = (writeEvent cfg fs2 e got s2).txt) := by
  refine ⟨?_, ?_, ?_⟩
  · intro h hs
    unfold writeEvent root_ready
    simp only [h]
    split_ifs <;> simp [hs]
  · intro h hs
    unfold writeEvent
    simp only [h]
    split_ifs <;> simp [hs]
  · intro h hs
    unfold writeEvent txt_out_is_open
    simp only [h]
    split_ifs <;> simp [hs]

theorem eventLoop_agree (cfg : Config) (dev : Device) (fs1 fs2 : FileSystem)
    (es : List (Option UINT16_EVENT)) :
    ∀ (i : Nat) (st1 st2 : AcqState), st1.Agree fs1 fs2 st2 →
      (eventLoop cfg dev fs1 es i st1).Agree fs1 fs2 (eventLoop cfg dev fs2 es i st2) := by
  induction es with
  | nil => intro i st1 st2 h; simpa [eventLoop, Outcome.Agree] using h
  | cons e es ih =>
    intro i st1 st2 h
    obtain ⟨g1, s1, l1⟩ := st1
    obtain ⟨g2, s2, l2⟩ := st2
    obtain ⟨hg, hl, hr, hd, ht⟩ := h
    dsimp only at hg hl hr hd ht
    subst hg
    subst hl
    unfold eventLoop
    by_cases hlt : g1 < cfg.N
    · simp only [if_pos hlt]
      cases hc : okAll dev [.GetEventInfo i, .DecodeEvent] l1 with
      | exit code log => exact ⟨rfl, rfl, rfl, hr, hd, ht⟩
      | ret u log =>
        apply ih
        have hw := writeEvent_agree cfg fs1 fs2 e g1 s1 s2
        exact ⟨rfl, rfl, fun h1 => hw.1 h1 (hr h1), fun h1 => hw.2.1 h1 (hd h1),
          fun h1 => hw.2.2 h1 (ht h1)⟩
    · simp only [if_neg hlt]
      exact ⟨rfl, rfl, hr, hd, ht⟩

theorem acquire_agree (cfg : Config) (dev : Device) (fs1 fs2 : FileSystem)
    (rs : List Readout) :
    ∀ (st1 st2 : AcqState), st1.Agree fs1 fs2 st2 →
      (acquire cfg dev fs1 rs st1).Agree fs1 fs2 (acquire cfg dev fs2 rs st2) := by
  induction rs with
  | nil =>
    intro st1 st2 h
    unfold acquire
    rw [← h.1]
    split <;> exact h
  | cons r rs ih =>
    intro st1 st2 h
    obtain ⟨g1, s1, l1⟩ := st1
    obtain ⟨g2, s2, l2⟩ := st2
    obtain ⟨hg, hl, hr, hd, ht⟩ := h
    dsimp only at hg hl hr hd ht
    subst hg
    subst hl
    unfold acquire
    by_cases hlt : g1 < cfg.N
    · simp only [if_pos hlt]
      cases hrd : ok dev .ReadData (sendTrigger cfg l1) with
      | exit code log => exact ⟨rfl, rfl, rfl, hr, hd, ht⟩
      | ret u log1 =>
        dsimp only
        by_cases hb : r.bsz = 0
        · simp only [if_pos hb]
          exact ih _ _ ⟨rfl, rfl, hr, hd, ht⟩
        · simp only [if_neg hb]
          cases hn : ok dev .GetNumEvents log1 with
          | exit code log => exact ⟨rfl, rfl, rfl, hr, hd, ht⟩
          | ret u2 log2 =>
            dsimp only
            have he := eventLoop_agree cfg dev fs1 fs2 r.events 0
              ⟨g1, s1, log2⟩ ⟨g1, s2, log2⟩ ⟨rfl, rfl, hr, hd, ht⟩
            cases h1 : eventLoop cfg dev fs1 r.events 0 ⟨g1, s1, log2⟩ with
            | done a =>
              cases h2 : eventLoop cfg dev fs2 r.events 0 ⟨g1, s2, log2⟩ with
              | done b => rw [h1, h2] at he; exact ih _ _ he
              | exit c b => rw [h1, h2] at he; exact he.elim
              | polling b => rw [h1, h2] at he; exact he.elim
            | exit c a =>
              cases h2 : eventLoop cfg dev fs2 r.events 0 ⟨g1, s2, log2⟩ with
              | done b => rw [h1, h2] at he; exact he.elim
              | exit c2 b => rw [h1, h2] at he; exact he
              | polling b => rw [h1, h2] at he; exact he.elim
            | polling a =>
              cases h2 : eventLoop cfg dev fs2 r.events 0 ⟨g1, s2, log2⟩ with
              | done b => rw [h1, h2] at he; exact he.elim
              | exit c2 b => rw [h1, h2] at he; exact he.elim
              | polling b => rw [h1, h2] at he; exact he
    · simp only [if_neg hlt]
      exact ⟨rfl, rfl, hr, hd, ht⟩

theorem main_agree (cfg : Config) (dev : Device) (fs1 fs2 : FileSystem) :
    (main cfg dev fs1).Agree fs1 fs2 (main cfg dev fs2) := by
  have hinit : ∀ log : Log, AcqState.Agree fs1 fs2 { log := log } { log := log } :=
    fun log => ⟨rfl, rfl, fun _ => rfl, fun _ => rfl, fun _ => rfl⟩
  unfold main
  cases hc : configure cfg dev with
  | exit code log => exact ⟨rfl, hinit log⟩
  | ret ped log1 =>
    dsimp only
    cases hs : okAll dev [.ClearData, .SWStartAcquisition, .MallocReadoutBuffer,
        .AllocateEvent] log1 with
    | exit code log => exact ⟨rfl, hinit log⟩
    | ret u log2 =>
      dsimp only
      have ha := acquire_agree cfg dev fs1 fs2 dev.readouts _ _ (hinit log2)
      cases h1 : acquire cfg dev fs1 dev.readouts { log := log2 } with
      | done a =>
        cases h2 : acquire cfg dev fs2 dev.readouts { log := log2 } with
        | done b =>
          rw [h1, h2] at ha
          obtain ⟨hg, hl, hr, hd, ht⟩ := ha
          dsimp only
          rw [← hl]
          cases hk : ok dev .SWStopAcquisition a.log with
          | exit code log => exact ⟨rfl, hg, rfl, hr, hd, ht⟩
          | ret u3 log3 => exact ⟨rfl, hg, rfl, hr, hd, ht⟩
        | exit c b => rw [h1, h2] at ha; exact ha.elim
        | polling b => rw [h1, h2] at ha; exact ha.elim
      | exit c a =>
        cases h2 : acquire cfg dev fs2 dev.readouts { log := log2 } with
        | done b => rw [h1, h2] at ha; exact ha.elim
        | exit c2 b => rw [h1, h2] at ha; exact ha
        | polling b => rw [h1, h2] at ha; exact ha.elim
      | polling a =>
        cases h2 : acquire cfg dev fs2 dev.readouts { log := log2 } with
        | done b => rw [h1, h2] at ha; exact ha.elim
        | exit c2 b => rw [h1, h2] at ha; exact ha.elim
        | polling b => rw [h1, h2] at ha; exact ha

theorem Outcome.agree_code_state (fs1 fs2 : FileSystem) (o1 o2 : Outcome)
    (h : o1.Agree fs1 fs2 o2) : o1.code = o2.code ∧ o1.state.Agree fs1 fs2 o2.state := by
  cases o1 <;> cases o2 <;> first
    | exact h.elim
    | exact ⟨rfl, h⟩
    | exact ⟨congrArg some h.1, h.2⟩

/-- C11: for every event stream and target `N`, the way the run ends, the
final acquired count and the driver calls are the same on any two file
systems, that is whether the sinks open or fail; the events delivered to the
ROOT sink are the same whenever the ROOT file opens alike, whatever the text
sinks do (an unwritable `--txtdir` or `--txt` path); and likewise each text
sink receives the same events whatever the other sinks do. -/
theorem sink_failure_is_isolated (cfg : Config) (dev : Device) (fs1 fs2 : FileSystem) :
    (main cfg dev fs1).code = (main cfg dev fs2).code ∧
    (main cfg dev fs1).state.got = (main cfg dev fs2).state.got ∧
    (main cfg dev fs1).state.log = (main cfg dev fs2).state.log ∧
    (fs1.rootOpens = fs2.rootOpens →
      (main cfg dev fs1).state.sinks.root = (main cfg dev fs2).state.sinks.root) ∧
    (fs1.foutOpens = fs2.foutOpens →
      (main cfg dev fs1).state.sinks.txtdir = (main cfg dev fs2).state.sinks.txtdir) ∧
    (fs1.txtOpens = fs2.txtOpens →
      (main cfg dev fs1).state.sinks.txt = (main cfg dev fs2).state.sinks.txt) := by
  obtain ⟨hc, hg, hl, hr, hd, ht⟩ :=
    Outcome.agree_code_state fs1 fs2 _ _ (main_agree cfg dev fs1 fs2)
  exact ⟨hc, hg, hl, hr, hd, ht⟩

/-- Witness of C11: target 2 with ROOT output and a text directory, once
with every sink writable and once with no text sink writable; both runs end
with exit code 0, 2 acquired events and the same two ROOT waveforms. -/
theorem sink_failure_is_isolated_witness :
    (main rootAndTxtdirConfig twoEventDevice textSinksFail).code = some 0 ∧
    (main rootAndTxtdirConfig twoEventDevice textSinksFail).state.got = 2 ∧
    (main rootAndTxtdirConfig twoEventDevice textSinksFail).state.sinks
      = { txtdir := [], txt := [], root := [⟨0, [1, 2]⟩, ⟨1, [3, 4]⟩] } ∧
    (main rootAndTxtdirConfig twoEventDevice allOpen).state.sinks
      = { txtdir := [⟨0, [1, 2]⟩, ⟨1, [3, 4]⟩], txt := [],
          root := [⟨0, [1, 2]⟩, ⟨1, [3, 4]⟩] } ∧
    (main rootAndTxtdirConfig twoEventDevice allOpen).state.sinks.root
      = (main rootAndTxtdirConfig twoEventDevice textSinksFail).state.sinks.root :=
  ⟨by decide, by decide, by decide, by decide,
    (sink_failure_is_isolated rootAndTxtdirConfig twoEventDevice allOpen
      textSinksFail).2.2.2.1 rfl⟩

/-! ### No validation of the run configuration -/

theorem measure_pedestal_success (dev : Device) (ch : Int) (maxSamp : Nat) (log : Log)
    (hok : ∀ k, dev.ec k = CAEN_DGTZ_Success) :
    ∃ ped l, measure_pedestal dev ch maxSamp log = .ret ped l ∧
      ((ch < 0 ∨ 8 ≤ ch) → ped = 0x8000) := by
  unfold measure_pedestal
  simp only [okAll_success dev hok, Run.bind]
  split
  · exact ⟨_, _, rfl, fun _ => rfl⟩
  · split
    · exact ⟨_, _, rfl, fun _ => rfl⟩
    · split
      · exact ⟨_, _, rfl, fun _ => rfl⟩
      · rename_i hcond
        refine ⟨_, _, rfl, fun h => ?_⟩
        exfalso
        apply hcond
        rcases h with h | h
        · exact Or.inl h
        · exact Or.inr (Or.inl h)

theorem configure_success (cfg : Config) (dev : Device)
    (hmode : cfg.trig = "sw" ∨ cfg.trig = "ext" ∨ cfg.trig = "self")
    (hok : ∀ k, dev.ec k = CAEN_DGTZ_Success) :
    ∃ ped log, configure cfg dev = .ret ped log ∧ programBasics cfg <+: log ∧
      ((cfg.ch < 0 ∨ 8 ≤ cfg.ch) → ped = 0x8000) := by
  have hsel : ∃ calls, triggerSelection cfg.trig = some calls := by
    unfold triggerSelection
    rcases hmode with h | h | h <;> rw [h] <;> simp
  obtain ⟨calls, hcalls⟩ := hsel
  obtain ⟨ped, l, hmp, hped⟩ :=
    measure_pedestal_success dev cfg.ch 200 ([] ++ programBasics cfg ++ calls) hok
  obtain ⟨t, ht, _⟩ := measure_pedestal_ret_log _ _ _ _ _ _ hmp
  refine ⟨ped, read_temperatures (l ++ armCalls cfg ped), ?_, ?_, hped⟩
  · unfold configure
    simp only [okAll_success dev hok, Run.bind, hcalls, hmp]
  · rw [ht, read_temperatures]
    simp only [List.nil_append, List.append_assoc]
    exact List.prefix_append _ _

theorem eventLoop_no_exit (cfg : Config) (dev : Device) (fs : FileSystem)
    (hok : ∀ k, dev.ec k = CAEN_DGTZ_Success) (es : List (Option UINT16_EVENT)) :
    ∀ (i : Nat) (st st1 : AcqState) (code : Int),
      eventLoop cfg dev fs es i st ≠ .exit code st1 := by
  induction es with
  | nil => intro i st st1 code; simp [eventLoop]
  | cons e es ih =>
    intro i st st1 code
    unfold eventLoop
    split
    · rw [okAll_success dev hok]
      exact ih _ _ _ _
    · simp

theorem acquire_no_exit (cfg : Config) (dev : Device) (fs : FileSystem)
    (hok : ∀ k, dev.ec k = CAEN_DGTZ_Success) (rs : List Readout) :
    ∀ (st st1 : AcqState) (code : Int), acquire cfg dev fs rs st ≠ .exit code st1 := by
  induction rs with
  | nil =>
    intro st st1 code
    unfold acquire
    split <;> simp
  | cons r rs ih =>
    intro st st1 code
    unfold acquire
    by_cases hlt : st.got < cfg.N
    · rw [if_pos hlt, ok_success dev _ _ (hok _)]
      dsimp only
      by_cases hb : r.bsz = 0
      · rw [if_pos hb]
        exact ih _ _ _
      · rw [if_neg hb, ok_success dev _ _ (hok _)]
        dsimp only
        cases he : eventLoop cfg dev fs r.events 0
            { st with log := sendTrigger cfg st.log ++ [.ReadData] ++ [.GetNumEvents] } with
        | done st2 => exact ih _ _ _
        | exit c st2 => exact absurd he (eventLoop_no_exit cfg dev fs hok _ _ _ _ _)
        | polling st2 => simp
    · rw [if_neg hlt]; simp

/-- C12 as stated fails: with channel 9 (outside `0..7`) and with record
length 0 the threshold program does not reject the configuration: on a device
whose calls succeed it programs the device (thresholds on channels 8 and 9,
record length 0), starts the acquisition and completes with exit code 0. -/
theorem invalid_configuration_is_run :
    (main channelNineConfig twoEventDevice allOpen).code = some 0 ∧
    (main channelNineConfig twoEventDevice allOpen).state.got = 1 ∧
    thresholdWrites (main channelNineConfig twoEventDevice allOpen).state.log = [8, 9] ∧
    DeviceCall.SWStartAcquisition ∈ (main channelNineConfig twoEventDevice allOpen).state.log ∧
    (main zeroRecLenConfig twoEventDevice allOpen).code = some 0 ∧
    (main zeroRecLenConfig twoEventDevice allOpen).state.got = 1 ∧
    DeviceCall.SetRecordLength 0 ∈ (main zeroRecLenConfig twoEventDevice allOpen).state.log := by
  decide

/-- C12 amended: the threshold program does not validate the channel index
or the record length. For every record length (`<= 0` included) and every
channel index for which the program is defined (`0..31`, so that the shifts
of line 212 are defined, and inside the channel arrays of the events it
decodes; the channels `8..31` outside the device range `0..7` included), with
a known trigger mode and driver calls that succeed, the configuration
completes with the record length written to the device as given (a channel
outside `0..7` only makes the pedestal the midscale constant), and the program
goes on to the acquisition: it completes with exit code 0 or is still polling;
it does not exit with code 1 or 2. -/
theorem configuration_not_validated (cfg : Config) (dev : Device) (fs : FileSystem)
    (hmode : cfg.trig = "sw" ∨ cfg.trig = "ext" ∨ cfg.trig = "self")
    (hok : ∀ k, dev.ec k = CAEN_DGTZ_Success)
    (h31 : cfg.ch ≤ 31) (hin : ChannelInEvents cfg dev) :
    (0 ≤ pair_base cfg.ch ∧ pair_base cfg.ch + 1 < 32) ∧
    (∃ ped log, configure cfg dev = .ret ped log ∧ programBasics cfg <+: log ∧
      DeviceCall.SetRecordLength cfg.recLen ∈ log ∧
      (8 ≤ cfg.ch → ped = 0x8000)) ∧
    ((main cfg dev fs).code = some 0 ∨ (main cfg dev fs).code = none) := by
  obtain ⟨ped, log, hc, hp, hped⟩ := configure_success cfg dev hmode hok
  refine ⟨?_, ⟨ped, log, hc, hp, ?_, fun h => hped (Or.inr h)⟩, ?_⟩
  · have h0 : 0 ≤ cfg.ch := hin.1
    generalize cfg.ch = C at h0 h31
    interval_cases C <;> decide
  · apply hp.subset
    simp [programBasics]
  · unfold main
    rw [hc]
    dsimp only
    rw [okAll_success dev hok]
    dsimp only
    cases ha : acquire cfg dev fs dev.readouts
        { log := log ++ [.ClearData, .SWStartAcquisition, .MallocReadoutBuffer,
          .AllocateEvent] } with
    | done st =>
      dsimp only
      rw [ok_success dev _ _ (hok _)]
      exact Or.inl rfl
    | exit code st => exact absurd ha (acquire_no_exit cfg dev fs hok _ _ _ _)
    | polling st => exact Or.inr rfl

/-- Witness of C12 amended: channel 9 and record length 0 on a device whose
calls succeed and whose events have 64 channel entries; the run starts the acquisition and completes with exit code 0 and one event
counted. -/
theorem configuration_not_validated_witness :
    (main boardNineConfig boardDevice allOpen).code = some 0 ∧
    (main boardNineConfig boardDevice allOpen).state.got = 1 ∧
    DeviceCall.SetRecordLength 0 ∈ (main boardNineConfig boardDevice allOpen).state.log ∧
    ((0 ≤ pair_base boardNineConfig.ch ∧ pair_base boardNineConfig.ch + 1 < 32) ∧
    (∃ ped log, configure boardNineConfig boardDevice = .ret ped log ∧
      programBasics boardNineConfig <+: log ∧
      DeviceCall.SetRecordLength boardNineConfig.recLen ∈ log ∧
      (8 ≤ boardNineConfig.ch → ped = 0x8000)) ∧
    ((main boardNineConfig boardDevice allOpen).code = some 0 ∨
      (main boardNineConfig boardDevice allOpen).code = none)) :=
  ⟨by decide, by decide, by decide,
    configuration_not_validated boardNineConfig boardDevice allOpen
      (Or.inr (Or.inr rfl)) (fun _ => rfl) (by decide)
      ⟨by decide, fun e he => by cases he; decide, by
        intro r hr e he
        simp only [boardDevice, goodDevice, List.mem_cons, List.mem_singleton,
          List.not_mem_nil, or_false] at hr
        rcases hr with rfl | rfl <;>
        · simp only [List.mem_singleton, Option.some.injEq] at he
          subst he
          decide⟩⟩

/-! ### The pedestal as a mean -/

theorem sumLoop_succ (data : List Nat) (n : Nat) :
    sumLoop data (n + 1) = (sumLoop data n + data.getD n 0) % 2 ^ 64 := by
  unfold sumLoop
  rw [List.range_succ, List.foldl_append]
  rfl

theorem sum_take_succ_getD (data : List Nat) :
    ∀ n, n < data.length → (data.take (n + 1)).sum = (data.take n).sum + data.getD n 0 := by
  induction data with
  | nil => intro n h; simp at h
  | cons x xs ih =>
    intro n h
    cases n with
    | zero => simp
    | succ n =>
      have h1 : n < xs.length := by simpa using h
      have := ih n h1
      simp only [List.take_succ_cons, List.sum_cons, List.getD_cons_succ]
      omega

theorem sum_take_le (data : List Nat) (h16 : ∀ x ∈ data, x < 2 ^ 16) :
    ∀ n, (data.take n).sum ≤ n * 65535 := by
  induction data with
  | nil => intro n; simp
  | cons x xs ih =>
    intro n
    cases n with
    | zero => simp
    | succ n =>
      have hx : x < 2 ^ 16 := h16 x (List.mem_cons_self _ _)
      have := ih (fun y hy => h16 y (List.mem_cons_of_mem _ hy)) n
      simp only [List.take_succ_cons, List.sum_cons]
      omega

theorem getD_lt_of_all_lt (data : List Nat) (h16 : ∀ x ∈ data, x < 2 ^ 16) (n : Nat) :
    data.getD n 0 < 2 ^ 16 := by
  by_cases h : n < data.length
  · rw [List.getD_eq_getElem _ _ h]
    exact h16 _ (List.getElem_mem h)
  · rw [List.getD_eq_default _ _ (by omega)]
    decide

theorem sumLoop_eq_sum_take (data : List Nat) (h16 : ∀ x ∈ data, x < 2 ^ 16) :
    ∀ n, n ≤ data.length → n ≤ 200 → sumLoop data n = (data.take n).sum := by
  intro n
  induction n with
  | zero => intro _ _; simp [sumLoop]
  | succ n ih =>
    intro hl h200
    rw [sumLoop_succ, ih (by omega) (by omega), sum_take_succ_getD data n (by omega)]
    have h1 := sum_take_le data h16 n
    have h2 := getD_lt_of_all_lt data h16 n
    apply Nat.mod_eq_of_lt
    have : (2 : Nat) ^ 64 = 18446744073709551616 := by norm_num
    have : (2 : Nat) ^ 16 = 65536 := by norm_num
    omega

theorem le_sum_of_forall_le (l : List Nat) (lo : Nat) (h : ∀ x ∈ l, lo ≤ x) :
    l.length * lo ≤ l.sum := by
  induction l with
  | nil => simp
  | cons x xs ih =>
    have hx := h x (List.mem_cons_self _ _)
    have := ih (fun y hy => h y (List.mem_cons_of_mem _ hy))
    simp only [List.length_cons, List.sum_cons]
    rw [Nat.add_mul]
    omega

theorem sum_le_of_forall_le (l : List Nat) (hi : Nat) (h : ∀ x ∈ l, x ≤ hi) :
    l.sum ≤ l.length * hi := by
  induction l with
  | nil => simp
  | cons x xs ih =>
    have hx := h x (List.mem_cons_self _ _)
    have := ih (fun y hy => h y (List.mem_cons_of_mem _ hy))
    simp only [List.length_cons, List.sum_cons]
    rw [Nat.add_mul]
    omega

theorem minSample_le (l : List Nat) : ∀ x ∈ l, minSample l ≤ x := by
  have key : ∀ (d : Nat) (l : List Nat), ∀ x ∈ l, l.foldr min d ≤ x := by
    intro d l
    induction l with
    | nil => intro x hx; simp at hx
    | cons y ys ih =>
      intro x hx
      simp only [List.foldr_cons]
      rcases List.mem_cons.mp hx with rfl | hx1
      · exact Nat.min_le_left _ _
      · exact le_trans (Nat.min_le_right _ _) (ih x hx1)
  exact key _ l

theorem le_maxSample (l : List Nat) : ∀ x ∈ l, x ≤ maxSample l := by
  unfold maxSample
  induction l with
  | nil => intro x hx; simp at hx
  | cons y ys ih =>
    intro x hx
    simp only [List.foldr_cons]
    rcases List.mem_cons.mp hx with rfl | hx1
    · exact Nat.le_max_left _ _
    · exact le_trans (ih x hx1) (Nat.le_max_right _ _)

theorem usedSamples_length (e : UINT16_EVENT) (ch : Int) :
    (usedSamples e ch).length = min (e.ChSize ch) 200 := by
  unfold usedSamples UINT16_EVENT.ChSize
  rw [List.length_take]
  omega

theorem leadingMean_le (e : UINT16_EVENT) (ch : Int)
    (h16 : ∀ x ∈ e.samples ch, x < 2 ^ 16) : leadingMean e ch ≤ 65535 := by
  unfold leadingMean
  by_cases hz : (usedSamples e ch).length = 0
  · rw [hz, Nat.div_zero]; exact Nat.zero_le _
  · apply Nat.div_le_of_le_mul
    apply sum_le_of_forall_le
    intro x hx
    have := h16 x (List.mem_of_mem_take hx)
    have h2 : (2 : Nat) ^ 16 = 65536 := by norm_num
    omega

theorem measure_pedestal_mean (dev : Device) (ch : Int) (log : Log) (e : UINT16_EVENT)
    (hok : ∀ k, dev.ec k = CAEN_DGTZ_Success)
    (hnev : dev.burst.nev ≠ 0) (hbsz : dev.burst.bsz ≠ 0) (hevt : dev.burst.evt = some e)
    (h0 : 0 ≤ ch) (h7 : ch < 8) (hs : 1 ≤ e.ChSize ch)
    (h16 : ∀ x ∈ e.samples ch, x < 2 ^ 16) :
    ∃ l, measure_pedestal dev ch 200 log = .ret (leadingMean e ch) l := by
  have hn : min (e.ChSize ch) 200 ≠ 0 := by omega
  have hsum : sumLoop (e.samples ch) (min (e.ChSize ch) 200) = (usedSamples e ch).sum :=
    sumLoop_eq_sum_take _ h16 _ (by unfold UINT16_EVENT.ChSize; omega) (by omega)
  have hval : (sumLoop (e.samples ch) (min (e.ChSize ch) 200) /
      (if min (e.ChSize ch) 200 ≠ 0 then min (e.ChSize ch) 200 else 1)) % 2 ^ 32
      = leadingMean e ch := by
    rw [if_pos hn, hsum, ← usedSamples_length]
    apply Nat.mod_eq_of_lt
    have := leadingMean_le e ch h16
    unfold leadingMean at this
    have h2 : (2 : Nat) ^ 32 = 4294967296 := by norm_num
    omega
  unfold measure_pedestal
  simp only [okAll_success dev hok, Run.bind]
  rw [if_neg (by rintro (h | h) <;> contradiction)]
  simp only [hevt]
  rw [if_neg (by rintro (h | h | h) <;> omega)]
  exact ⟨_, by rw [← hval]⟩

theorem configure_ret_of_pedestal (cfg : Config) (dev : Device) (ped : Nat)
    (hmode : cfg.trig = "sw" ∨ cfg.trig = "ext" ∨ cfg.trig = "self")
    (hok : ∀ k, dev.ec k = CAEN_DGTZ_Success)
    (hmp : ∀ log, ∃ l, measure_pedestal dev cfg.ch 200 log = .ret ped l) :
    ∃ l, configure cfg dev = .ret ped l := by
  have hsel : ∃ calls, triggerSelection cfg.trig = some calls := by
    unfold triggerSelection
    rcases hmode with h | h | h <;> rw [h] <;> simp
  obtain ⟨calls, hcalls⟩ := hsel
  obtain ⟨l, hl⟩ := hmp ([] ++ programBasics cfg ++ calls)
  refine ⟨read_temperatures (l ++ armCalls cfg ped), ?_⟩
  unfold configure
  simp only [okAll_success dev hok, Run.bind, hcalls, hl]

/-- C13: when the calibration burst succeeds and the target channel of its
first event holds `s >= 1` samples (16-bit values), `measure_pedestal` returns
the mean, rounded down, of the first `n = min(s, 200)` samples: the samples
used are a prefix of the samples available, never more than available and
never more than 200, and the result is the same for every record length of
the run configuration. -/
theorem pedestal_is_mean_of_leading_samples (cfg : Config) (dev : Device) (e : UINT16_EVENT)
    (hmode : cfg.trig = "sw" ∨ cfg.trig = "ext" ∨ cfg.trig = "self")
    (hok : ∀ k, dev.ec k = CAEN_DGTZ_Success)
    (hnev : dev.burst.nev ≠ 0) (hbsz : dev.burst.bsz ≠ 0) (hevt : dev.burst.evt = some e)
    (h0 : 0 ≤ cfg.ch) (h7 : cfg.ch < 8) (hs : 1 ≤ e.ChSize cfg.ch)
    (h16 : ∀ x ∈ e.samples cfg.ch, x < 2 ^ 16) :
    (∀ log, ∃ l, measure_pedestal dev cfg.ch 200 log
      = .ret ((usedSamples e cfg.ch).sum / min (e.ChSize cfg.ch) 200) l) ∧
    (∀ recLen : Int, ∃ l, configure { cfg with recLen := recLen } dev
      = .ret ((usedSamples e cfg.ch).sum / min (e.ChSize cfg.ch) 200) l) ∧
    usedSamples e cfg.ch = (e.samples cfg.ch).take (min (e.ChSize cfg.ch) 200) ∧
    (usedSamples e cfg.ch).length = min (e.ChSize cfg.ch) 200 ∧
    (usedSamples e cfg.ch).length ≤ e.ChSize cfg.ch ∧
    (usedSamples e cfg.ch).length ≤ 200 := by
  have hlen := usedSamples_length e cfg.ch
  have hmp : ∀ log, ∃ l, measure_pedestal dev cfg.ch 200 log
      = .ret ((usedSamples e cfg.ch).sum / min (e.ChSize cfg.ch) 200) l := by
    intro log
    obtain ⟨l, hl⟩ := measure_pedestal_mean dev cfg.ch log e hok hnev hbsz hevt h0 h7 hs h16
    exact ⟨l, by rw [hl, leadingMean, hlen]⟩
  refine ⟨hmp, ?_, rfl, hlen, by omega, by omega⟩
  intro recLen
  exact configure_ret_of_pedestal { cfg with recLen := recLen } dev _ hmode hok hmp

set_option maxRecDepth 100000 in
/-- Witness of C13: a calibration event of 300 samples on channel 2; the
first 200 (100 of 8000 and 100 of 8002) give the pedestal 8001, the 100
samples of 9000 after them are not used. -/
theorem pedestal_is_mean_of_leading_samples_witness :
    (usedSamples longEvent 2).sum / min (longEvent.ChSize 2) 200 = 8001 ∧
    ∃ l, measure_pedestal longBurstDevice 2 200 []
      = .ret ((usedSamples longEvent 2).sum / min (longEvent.ChSize 2) 200) l :=
  ⟨by decide,
    (pedestal_is_mean_of_leading_samples channelTwoConfig longBurstDevice longEvent
      (Or.inr (Or.inr rfl)) (fun _ => rfl) (by decide) (by decide) rfl (by decide)
      (by decide) (by decide) (by decide)).1 []⟩

/-- C16: for every non-empty array of 16-bit samples on the target channel
of a successful calibration burst, the pedestal `measure_pedestal` returns
lies between the minimum and the maximum of the samples averaged, hence is at
most 65535; no addition into the 64-bit accumulator wraps (the accumulator
holds the plain sum), and the divisor `n` is not zero. -/
theorem pedestal_within_sample_range (dev : Device) (ch : Int) (log : Log) (e : UINT16_EVENT)
    (hok : ∀ k, dev.ec k = CAEN_DGTZ_Success)
    (hnev : dev.burst.nev ≠ 0) (hbsz : dev.burst.bsz ≠ 0) (hevt : dev.burst.evt = some e)
    (h0 : 0 ≤ ch) (h7 : ch < 8) (hs : 1 ≤ e.ChSize ch)
    (h16 : ∀ x ∈ e.samples ch, x < 2 ^ 16) :
    ∃ ped l, measure_pedestal dev ch 200 log = .ret ped l ∧
      minSample (usedSamples e ch) ≤ ped ∧ ped ≤ maxSample (usedSamples e ch) ∧
      ped ≤ 65535 ∧
      (∀ k, k < min (e.ChSize ch) 200 →
        sumLoop (e.samples ch) k + (e.samples ch).getD k 0 < 2 ^ 64) ∧
      sumLoop (e.samples ch) (min (e.ChSize ch) 200) = (usedSamples e ch).sum ∧
      min (e.ChSize ch) 200 ≠ 0 := by
  obtain ⟨l, hl⟩ := measure_pedestal_mean dev ch log e hok hnev hbsz hevt h0 h7 hs h16
  have hlen := usedSamples_length e ch
  have hpos : 0 < (usedSamples e ch).length := by omega
  refine ⟨leadingMean e ch, l, hl, ?_, ?_, leadingMean_le e ch h16, ?_, ?_, by omega⟩
  · unfold leadingMean
    rw [Nat.le_div_iff_mul_le hpos, Nat.mul_comm]
    exact le_sum_of_forall_le _ _ (minSample_le _)
  · unfold leadingMean
    apply Nat.div_le_of_le_mul
    exact sum_le_of_forall_le _ _ (le_maxSample _)
  · intro k hk
    have hkl : k ≤ (e.samples ch).length := by
      unfold UINT16_EVENT.ChSize at hk
      omega
    rw [sumLoop_eq_sum_take _ h16 k hkl (by omega)]
    have h1 := sum_take_le _ h16 k
    have h2 := getD_lt_of_all_lt _ h16 k
    have h3 : (2 : Nat) ^ 64 = 18446744073709551616 := by norm_num
    have h4 : (2 : Nat) ^ 16 = 65536 := by norm_num
    omega
  · exact sumLoop_eq_sum_take _ h16 _ (by unfold UINT16_EVENT.ChSize; omega) (by omega)

set_option maxRecDepth 100000 in
/-- Witness of C16: the calibration event of 300 samples on channel 2 gives
a pedestal between 8000 and 8002, the extremes of the 200 samples averaged. -/
theorem pedestal_within_sample_range_witness :
    minSample (usedSamples longEvent 2) = 8000 ∧
    maxSample (usedSamples longEvent 2) = 8002 ∧
    ∃ ped l, measure_pedestal longBurstDevice 2 200 [] = .ret ped l ∧
      minSample (usedSamples longEvent 2) ≤ ped ∧ ped ≤ maxSample (usedSamples longEvent 2) ∧
      ped ≤ 65535 ∧
      (∀ k, k < min (longEvent.ChSize 2) 200 →
        sumLoop (longEvent.samples 2) k + (longEvent.samples 2).getD k 0 < 2 ^ 64) ∧
      sumLoop (longEvent.samples 2) (min (longEvent.ChSize 2) 200)
        = (usedSamples longEvent 2).sum ∧
      min (longEvent.ChSize 2) 200 ≠ 0 :=
  ⟨by decide, by decide,
    pedestal_within_sample_range longBurstDevice 2 [] longEvent (fun _ => rfl)
      (by decide) (by decide) rfl (by decide) (by decide) (by decide) (by decide)⟩

/-! ### Telemetry fields -/

/-- C14 as stated fails: a sensor channel whose read succeeds with a raw
value of 250 gets no field. With channel 1 also readable (45) the record holds
`temp_ch1` only; with channel 0 the only readable channel no record is pushed
and the cycle is reported as failed although a channel was readable. -/
theorem readable_hot_channel_has_no_field :
    (hotSensorReads 0).ret = CAEN_DGTZ_Success ∧
    (loop_once "DT5730S" "daq-host" hotSensorReads true).fields = [⟨1, 45⟩] ∧
    (loop_once "DT5730S" "daq-host" hotSensorReads true).pushed
      = some "DT5730S,host=daq-host,device=DT5730S temp_ch1=45.0" ∧
    (onlyHotSensorReads 0).ret = CAEN_DGTZ_Success ∧
    loop_once "DT5730S" "daq-host" onlyHotSensorReads true
      = { ok := false, pushed := none, fields := [] } := by
  decide

theorem collectFields_mem (reads : Nat → TempRead) (f : TempField) :
    f ∈ collectFields reads ↔
      f.ch < 8 ∧ (reads f.ch).ret = CAEN_DGTZ_Success ∧ (reads f.ch).temp_raw < 200 ∧
        f.temp_raw = (reads f.ch).temp_raw := by
  unfold collectFields
  rw [List.mem_filterMap]
  constructor
  · rintro ⟨ch, hch, hf⟩
    split at hf
    · rename_i hc
      simp only [Option.some.injEq] at hf
      subst hf
      exact ⟨List.mem_range.mp hch, hc.1, hc.2, rfl⟩
    · simp at hf
  · rintro ⟨h8, hr, ht, hv⟩
    refine ⟨f.ch, List.mem_range.mpr h8, ?_⟩
    rw [if_pos ⟨hr, ht⟩, ← hv]

theorem collectFields_channels (reads : Nat → TempRead) :
    (collectFields reads).map TempField.ch
      = (List.range 8).filter fun ch =>
          decide ((reads ch).ret = CAEN_DGTZ_Success ∧ (reads ch).temp_raw < 200) := by
  unfold collectFields
  induction List.range 8 with
  | nil => rfl
  | cons c cs ih =>
    by_cases hc : (reads c).ret = CAEN_DGTZ_Success ∧ (reads c).temp_raw < 200
    · simp only [List.filterMap_cons, if_pos hc, List.map_cons, List.filter_cons,
        decide_eq_true hc, if_true, ih]
    · simp only [List.filterMap_cons, if_neg hc, List.filter_cons, decide_eq_false hc, ih]
      simp

/-- C14 amended: in one telemetry polling cycle the record has a field
`temp_ch<i>` for channel `i` exactly when `i` is one of the channels `0..7`
whose read succeeded with a raw value below 200, the field carries that value,
and the fields are in strictly ascending channel order (one per such channel);
if there is no such channel (in particular if no channel is readable) no record
is pushed and the cycle is reported as failed; otherwise the record of these
fields is pushed and the cycle succeeds exactly when the transport does. -/
theorem telemetry_fields_per_valid_channel (measurement host : String)
    (reads : Nat → TempRead) (sent : Bool) :
    (∀ i, (∃ t, (⟨i, t⟩ : TempField) ∈ (loop_once measurement host reads sent).fields) ↔
      i < 8 ∧ (reads i).ret = CAEN_DGTZ_Success ∧ (reads i).temp_raw < 200) ∧
    (∀ f ∈ (loop_once measurement host reads sent).fields,
      f.temp_raw = (reads f.ch).temp_raw) ∧
    ((loop_once measurement host reads sent).fields.map TempField.ch).Pairwise (· < ·) ∧
    ((∀ i, i < 8 → ¬ ((reads i).ret = CAEN_DGTZ_Success ∧ (reads i).temp_raw < 200)) →
      loop_once measurement host reads sent = { ok := false, pushed := none, fields := [] }) ∧
    ((∃ i, i < 8 ∧ (reads i).ret = CAEN_DGTZ_Success ∧ (reads i).temp_raw < 200) →
      (loop_once measurement host reads sent).ok = sent ∧
      (loop_once measurement host reads sent).pushed
        = some (lineProtocol measurement host (collectFields reads))) := by
  have hfields : (loop_once measurement host reads sent).fields = collectFields reads := by
    unfold loop_once
    dsimp only
    split <;> rfl
  rw [hfields]
  refine ⟨?_, ?_, ?_, ?_, ?_⟩
  · intro i
    constructor
    · rintro ⟨t, ht⟩
      have := (collectFields_mem reads ⟨i, t⟩).mp ht
      exact ⟨this.1, this.2.1, this.2.2.1⟩
    · rintro ⟨h8, hr, ht⟩
      exact ⟨(reads i).temp_raw, (collectFields_mem reads ⟨i, _⟩).mpr ⟨h8, hr, ht, rfl⟩⟩
  · intro f hf
    exact ((collectFields_mem reads f).mp hf).2.2.2
  · rw [collectFields_channels]
    exact (List.pairwise_lt_range 8).filter _
  · intro hnone
    have hnil : collectFields reads = [] := by
      rw [List.eq_nil_iff_forall_not_mem]
      intro f hf
      have := (collectFields_mem reads f).mp hf
      exact hnone f.ch this.1 ⟨this.2.1, this.2.2.1⟩
    unfold loop_once
    dsimp only
    rw [if_pos hnil, hnil]
  · rintro ⟨i, h8, hr, ht⟩
    have hne : collectFields reads ≠ [] := by
      intro hnil
      have hm := (collectFields_mem reads ⟨i, (reads i).temp_raw⟩).mpr ⟨h8, hr, ht, rfl⟩
      rw [hnil] at hm
      exact absurd hm (List.not_mem_nil _)
    unfold loop_once
    dsimp only
    rw [if_neg hne]
    exact ⟨rfl, rfl⟩

/-- Witness of C14 amended: channels 0 and 3 readable with 41 and 43; the
record pushed holds `temp_ch0` and `temp_ch3`, in this order. -/
theorem telemetry_fields_per_valid_channel_witness :
    (loop_once "DT5730S" "daq-host" twoSensorReads true).pushed
      = some "DT5730S,host=daq-host,device=DT5730S temp_ch0=41.0,temp_ch3=43.0" ∧
    ((loop_once "DT5730S" "daq-host" twoSensorReads true).ok = true ∧
      (loop_once "DT5730S" "daq-host" twoSensorReads true).pushed
        = some (lineProtocol "DT5730S" "daq-host" (collectFields twoSensorReads))) :=
  ⟨by decide,
    (telemetry_fields_per_valid_channel "DT5730S" "daq-host" twoSensorReads true).2.2.2.2
      ⟨0, by decide, by decide, by decide⟩⟩

end DAQ
